import Mathlib

/-!
Verification of the compound cloud simulation grid
(`src/microbe_stage/compound_cloud_system.cpp`).

Densities and world coordinates are modelled as exact rationals; machine
floats are treated as real-valued arithmetic.  The grid dimensions
`CLOUD_SIMULATION_WIDTH` / `CLOUD_SIMULATION_HEIGHT` and the world-space
constants `CLOUD_WIDTH` / `CLOUD_HEIGHT` / `CLOUD_RESOLUTION` /
`CLOUD_X_EXTENT` / `CLOUD_Y_EXTENT` are defined in a header that is not
part of the provided sources, so they are kept as explicit parameters
(`W`, `H`, `halfW`, `halfH`, `res`, `extX`, `extZ`) of every definition.

The file is organised as: all definitions first, then the lemmas and
theorems about them.
-/

namespace CloudSys

/-- A density field: a 2D grid of rational values, indexed by cell
coordinates.  (In the source: `std::vector<std::vector<float>>` of size
`CLOUD_SIMULATION_WIDTH x CLOUD_SIMULATION_HEIGHT`.) -/
abbrev Field := ℕ → ℕ → ℚ

/-- Write one cell of a density field. -/
def updF (f : Field) (x y : ℕ) (v : ℚ) : Field :=
  fun x' y' => if x' = x ∧ y' = y then v else f x' y'

/-- `static_cast<int>` applied to a (real-valued) float: truncation toward
zero. -/
def cppTruncQ (q : ℚ) : ℤ :=
  if 0 ≤ q then ⌊q⌋ else -⌊-q⌋

/-- `std::round`: rounding half away from zero. -/
def cppRoundQ (q : ℚ) : ℤ :=
  if 0 ≤ q then ⌊q + 1/2⌋ else -⌊-q + 1/2⌋

/-- `std::clamp(v, lo, hi)` as defined by the C++ standard
(`v < lo ? lo : hi < v ? hi : v`). -/
def qClamp (v lo hi : ℚ) : ℚ :=
  if v < lo then lo else if hi < v then hi else v

/-- `CompoundCloudSystem::cloudContainsPosition`: half-open rectangle
test against the tile centered at `cloudPos` with half-extents
`halfW`/`halfH` (the constants `CLOUD_WIDTH`/`CLOUD_HEIGHT`).  World
coordinates are the X/Z pair of the source's `Float3`. -/
def cloudContainsPosition (halfW halfH : ℚ) (cloudPos worldPos : ℚ × ℚ) : Bool :=
  !(decide (worldPos.1 < cloudPos.1 - halfW) || decide (worldPos.1 ≥ cloudPos.1 + halfW) ||
    decide (worldPos.2 < cloudPos.2 - halfH) || decide (worldPos.2 ≥ cloudPos.2 + halfH))

/-- `CompoundCloudSystem::convertWorldToCloudLocal`: floor the offset from
the tile's top-left corner divided by the cell resolution; fail (the
source throws `InvalidArgument`) when the resulting coordinate is outside
`[0, W) x [0, H)` (a negative float cast to `size_t` lands outside the
bound and is caught by the same check). -/
def convertWorldToCloudLocal (halfW halfH res : ℚ) (W H : ℕ)
    (cloudPos worldPos : ℚ × ℚ) : Option (ℕ × ℕ) :=
  let lx : ℤ := ⌊(worldPos.1 - (cloudPos.1 - halfW)) / res⌋
  let ly : ℤ := ⌊(worldPos.2 - (cloudPos.2 - halfH)) / res⌋
  if 0 ≤ lx ∧ lx < (W : ℤ) ∧ 0 ≤ ly ∧ ly < (H : ℤ) then
    some (lx.toNat, ly.toNat)
  else
    none

/-- `CompoundCloudSystem::calculateGridCenterForPlayerPos`: round each
axis of the player position to the nearest multiple of the tile's full
world extent. -/
def calculateGridCenterForPlayerPos (extX extZ : ℚ) (pos : ℚ × ℚ) : ℚ × ℚ :=
  ((cppRoundQ (pos.1 / extX) : ℚ) * extX, (cppRoundQ (pos.2 / extZ) : ℚ) * extZ)

/-- The four neighbor references of a tile after linking (the members
`m_upperCloud` / `m_lowerCloud` / `m_leftCloud` / `m_rightCloud`);
`none` models a null pointer. -/
structure CloudLinks where
  upperCloud : Option ℕ
  lowerCloud : Option ℕ
  leftCloud : Option ℕ
  rightCloud : Option ℕ
deriving DecidableEq

/-- `CompoundCloudSystem::setUpCloudLinks`, restricted to one entry of the
map it iterates over: given the assignment `asg` from (3x3 grid
coordinate, compound group id) to tile (the `clouds` map built by
`applyNewCloudPositioning`; a missing key default-constructs a null
pointer, modelled as `none`), compute the neighbor references stored into
the tile at grid coordinate `tile` of group `g`.  The offsets reproduce
the source exactly: the left/right lookups use `tile + Int2(0, -1)` and
`tile + Int2(0, 1)`. -/
def setUpCloudLinksFor (asg : ℤ × ℤ → ℕ → Option ℕ) (tile : ℤ × ℤ) (g : ℕ) : CloudLinks where
  upperCloud := if tile.2 = -1 then none else asg (tile.1 + 0, tile.2 + -1) g
  lowerCloud := if tile.2 = 1 then none else asg (tile.1 + 0, tile.2 + 1) g
  leftCloud := if tile.1 = -1 then none else asg (tile.1 + 0, tile.2 + -1) g
  rightCloud := if tile.1 = 1 then none else asg (tile.1 + 0, tile.2 + 1) g

/-- A concrete 3x3 assignment of distinct tile ids for group `0`:
grid coordinate `(i, j)` with `i, j` in `{-1, 0, 1}` holds tile
`(i + 1) * 3 + (j + 1)`. -/
def demoAssignment : ℤ × ℤ → ℕ → Option ℕ :=
  fun p g =>
    if -1 ≤ p.1 ∧ p.1 ≤ 1 ∧ -1 ≤ p.2 ∧ p.2 ≤ 1 ∧ g = 0 then
      some (((p.1 + 1) * 3 + (p.2 + 1)).toNat)
    else
      none

/-- Modelled from the spec: the sentinel compound id marking an unused
slot (`NULL_COMPOUND`, defined in a header not among the sources; only
its distinguishedness from real compound ids matters). -/
def NULL_COMPOUND : ℕ := 0

/-- The all-zero density field. -/
def zeroField : Field := fun _ _ => 0

/-- One compound slot of a tile (`CompoundCloudComponent::CloudData`):
compound id, viscosity, live density field and previous/history density
field. -/
structure CloudSlot where
  id : ℕ
  viscosity : ℚ
  density : Field
  oldDensity : Field

/-- A cloud tile (`CompoundCloudComponent`): world-space center position
and exactly `CLOUDS_IN_ONE = 4` compound slots. -/
structure CloudComp where
  position : ℚ × ℚ
  clouds : Fin 4 → CloudSlot

/-- `CompoundCloudComponent::getSlotForCompound`: index of the first slot
whose id equals `c`; the source throws when no slot matches (`none`). -/
def getSlotForCompound (comp : CloudComp) (c : ℕ) : Option (Fin 4) :=
  (List.finRange 4).find? (fun i => (comp.clouds i).id == c)

/-- `CompoundCloudComponent::handlesCompound`. -/
def handlesCompound (comp : CloudComp) (c : ℕ) : Bool :=
  (getSlotForCompound comp c).isSome

/-- Replace the density value of slot `i` at cell `(x, y)`. -/
def setSlotDensity (comp : CloudComp) (i : Fin 4) (x y : ℕ) (v : ℚ) : CloudComp :=
  { comp with
    clouds := fun j =>
      if j = i then { comp.clouds j with density := updF (comp.clouds j).density x y v }
      else comp.clouds j }

/-- `CompoundCloudComponent::addCloud`: add `dens` to the cell of the slot
handling `c`; `none` models the propagated `getSlotForCompound` throw. -/
def addCloud (comp : CloudComp) (c : ℕ) (dens : ℚ) (x y : ℕ) : Option CloudComp :=
  match getSlotForCompound comp c with
  | none => none
  | some i => some (setSlotDensity comp i x y ((comp.clouds i).density x y + dens))

/-- `CompoundCloudComponent::takeCompound`: truncate `density * rate` to
an int, subtract it from the cell, snap a residual below `1` to `0`, and
return the taken amount together with the updated tile. -/
def takeCompound (comp : CloudComp) (c : ℕ) (x y : ℕ) (rate : ℚ) :
    Option (ℤ × CloudComp) :=
  match getSlotForCompound comp c with
  | none => none
  | some i =>
    let amountToGive : ℤ := cppTruncQ ((comp.clouds i).density x y * rate)
    let d1 : ℚ := (comp.clouds i).density x y - (amountToGive : ℚ)
    some (amountToGive, setSlotDensity comp i x y (if d1 < 1 then 0 else d1))

/-- `CompoundCloudComponent::amountAvailable`: `density * rate`, truncated
to an int by the return type. -/
def amountAvailable (comp : CloudComp) (c : ℕ) (x y : ℕ) (rate : ℚ) : Option ℤ :=
  match getSlotForCompound comp c with
  | none => none
  | some i => some (cppTruncQ ((comp.clouds i).density x y * rate))

/-- `CompoundCloudComponent::getCompoundsAt`: append `(id, density)` for
every slot whose id is not the sentinel and whose density at the cell is
positive. -/
def getCompoundsAt (comp : CloudComp) (x y : ℕ) : List (ℕ × ℚ) :=
  (List.finRange 4).foldl
    (fun acc i =>
      if (comp.clouds i).id ≠ NULL_COMPOUND ∧ (comp.clouds i).density x y > 0 then
        acc ++ [((comp.clouds i).id, (comp.clouds i).density x y)]
      else acc)
    []

/-- `CompoundCloudComponent::recycleToPosition`: move the tile and zero
both density buffers of every slot that is not the empty sentinel. -/
def recycleToPosition (comp : CloudComp) (newPos : ℚ × ℚ) : CloudComp where
  position := newPos
  clouds := fun i =>
    if (comp.clouds i).id ≠ NULL_COMPOUND then
      { comp.clouds i with density := zeroField, oldDensity := zeroField }
    else comp.clouds i

/-- The per-slot solver dispatch of `CompoundCloudSystem::processCloud`:
for each of the `CLOUDS_IN_ONE` slots in order, run the per-slot solver
update (`diffuse` followed by `advect`, abstracted here as `step`; their
numerics are embedded separately) only when the slot's compound id is
not the empty sentinel. -/
def processCloudSlots (step : Fin 4 → CloudComp → CloudComp) (comp : CloudComp) : CloudComp :=
  (List.finRange 4).foldl
    (fun c i => if (c.clouds i).id ≠ NULL_COMPOUND then step i c else c) comp

/-- `CompoundCloudSystem::takeCompound`: linear scan over the managed
tiles; the first tile that contains the position and handles the compound
is taken from; a tile that contains the position but handles other
compounds is skipped; a failing local-coordinate conversion (the caught
`InvalidArgument`) returns `0` without mutation; an empty scan returns
`0`.  Returns the taken amount (an int converted to float) and the
updated tile list. -/
def sysTakeCompound (halfW halfH res : ℚ) (W H : ℕ) (tiles : List CloudComp)
    (c : ℕ) (wp : ℚ × ℚ) (rate : ℚ) : ℚ × List CloudComp :=
  match tiles with
  | [] => (0, [])
  | t :: rest =>
    if cloudContainsPosition halfW halfH t.position wp = true ∧ handlesCompound t c = true then
      match convertWorldToCloudLocal halfW halfH res W H t.position wp with
      | some (x, y) =>
        match takeCompound t c x y rate with
        | some (amt, t') => ((amt : ℚ), t' :: rest)
        | none => (0, t :: rest)
      | none => (0, t :: rest)
    else
      let r := sysTakeCompound halfW halfH res W H rest c wp rate
      (r.1, t :: r.2)

/-- A tile handling compound `3` in its first slot, with density `10` at
cell `(25, 25)` and empty remaining slots. -/
def takeDemoComp : CloudComp where
  position := (0, 0)
  clouds := fun i =>
    if i = 0 then ⟨3, 1, fun x y => if x = 25 ∧ y = 25 then 10 else 0, zeroField⟩
    else ⟨NULL_COMPOUND, 1, zeroField, zeroField⟩

/-- The invariant of claim C9: slots carrying the empty sentinel hold zero
density everywhere. -/
def emptySlotsZero (comp : CloudComp) : Prop :=
  ∀ i : Fin 4, (comp.clouds i).id = NULL_COMPOUND →
    ∀ x y : ℕ, (comp.clouds i).density x y = 0

/-- A tile whose first slot handles compound `1` and whose other three
slots are empty, with all densities zero. -/
def emptyDemoComp : CloudComp where
  position := (0, 0)
  clouds := fun i =>
    if i = 0 then ⟨1, 1, zeroField, zeroField⟩
    else ⟨NULL_COMPOUND, 1, zeroField, zeroField⟩

/-- The column of cells `(x, j), (x, j+1), ...` of length `n`: the inner
`for y` loop of the solvers, starting at row `j`. -/
def colCellsFrom (x : ℕ) : ℕ → ℕ → List (ℕ × ℕ)
  | _, 0 => []
  | j, n + 1 => (x, j) :: colCellsFrom x (j + 1) n

/-- The columns `i, i+1, ...` (each of height `H`), `n` of them: the
outer `for x` loop of the solvers, starting at column `i`. -/
def rowsFrom (H : ℕ) : ℕ → ℕ → List (ℕ × ℕ)
  | _, 0 => []
  | i, n + 1 => colCellsFrom i 0 H ++ rowsFrom H (i + 1) n

/-- All cells of a `W x H` grid in the loop order of the source
(`for x: for y`). -/
def cellsRM (W H : ℕ) : List (ℕ × ℕ) := rowsFrom H 0 W

/-- The `oldDensity` buffers of the four neighbor tiles for one compound
slot (`none` models a null neighbor pointer). -/
structure NeighborOlds where
  upper : Option Field
  lower : Option Field
  left : Option Field
  right : Option Field

/-- Read a neighbor's buffer; a missing neighbor leaves the stencil
contribution at `0.0f`. -/
def optAt (o : Option Field) (x y : ℕ) : ℚ :=
  match o with
  | some f => f x y
  | none => 0

/-- The body of the double loop of `CompoundCloudSystem::diffuse` for one
cell `c`: write into the (in-place) `old` buffer the value
`density[c] * (1 - a) + (up + down + left + right) * a / 4`, where the
four stencil reads come from the current state of the same `old` buffer
(or from the neighbor tile's buffer at the facing edge row/column, or 0
with no neighbor). -/
def diffuseStep (W H : ℕ) (a : ℚ) (density : Field) (nb : NeighborOlds)
    (old : Field) (c : ℕ × ℕ) : Field :=
  updF old c.1 c.2 (density c.1 c.2 * (1 - a) +
    ((if 0 < c.2 then old c.1 (c.2 - 1) else optAt nb.upper c.1 (H - 1)) +
     (if c.2 < H - 1 then old c.1 (c.2 + 1) else optAt nb.lower c.1 0) +
     (if 0 < c.1 then old (c.1 - 1) c.2 else optAt nb.left (W - 1) c.2) +
     (if c.1 < W - 1 then old (c.1 + 1) c.2 else optAt nb.right 0 c.2)) * a / 4)

/-- `CompoundCloudSystem::diffuse` for one tile and one slot: the double
loop over all cells in row-major order, updating the `oldDensity` buffer
in place, with `a = dt * diffRate`. -/
def diffuse (W H : ℕ) (diffRate dt : ℚ) (density old : Field) (nb : NeighborOlds) : Field :=
  (cellsRM W H).foldl (diffuseStep W H (dt * diffRate) density nb) old

/-- The same update expressed as a per-cell recurrence: the value the
in-place loop leaves at `(x, y)` reads the already-updated values at
`(x, y-1)` and `(x-1, y)` (processed earlier in row-major order) and the
not-yet-processed original `old` values at `(x, y+1)` and `(x+1, y)`. -/
def diffuseRec (W H : ℕ) (a : ℚ) (density old : Field) (nb : NeighborOlds) (x y : ℕ) : ℚ :=
  density x y * (1 - a) +
    ((if h : 0 < y then diffuseRec W H a density old nb x (y - 1)
      else optAt nb.upper x (H - 1)) +
     (if y < H - 1 then old x (y + 1) else optAt nb.lower x 0) +
     (if h : 0 < x then diffuseRec W H a density old nb (x - 1) y
      else optAt nb.left (W - 1) y) +
     (if x < W - 1 then old (x + 1) y else optAt nb.right 0 y)) * a / 4
termination_by x + y
decreasing_by
  all_goals omega

/-- The per-cell diffusion update as the claim words it (reference
definition for the refinement comparison, following the spec's words,
not the source): `newOld[x][y] = old[x][y]*(1-a) + (up+down+left+right)*a/4`
with every read taken from the previous-density (history) buffer as it
was before the pass. -/
def diffuseSpecFormula (W H : ℕ) (a : ℚ) (old : Field) (nb : NeighborOlds) (x y : ℕ) : ℚ :=
  old x y * (1 - a) +
    ((if 0 < y then old x (y - 1) else optAt nb.upper x (H - 1)) +
     (if y < H - 1 then old x (y + 1) else optAt nb.lower x 0) +
     (if 0 < x then old (x - 1) y else optAt nb.left (W - 1) y) +
     (if x < W - 1 then old (x + 1) y else optAt nb.right 0 y)) * a / 4

/-- One compound slot of one tile inside the advection tile graph:
its two density buffers, its viscosity, and the four neighbor references
(tile ids; `none` models a null pointer). -/
structure ATile where
  density : Field
  oldDensity : Field
  viscosity : ℚ
  upper : Option ℕ
  lower : Option ℕ
  left : Option ℕ
  right : Option ℕ

/-- The tile graph: every tile id resolves to a tile record. -/
abbrev AWorld := ℕ → ATile

/-- Add `value` to the live density of tile `tid` at cell `(x, y)`. -/
def addTileDensity (w : AWorld) (tid : ℕ) (x y : ℕ) (value : ℚ) : AWorld :=
  fun t =>
    if t = tid then
      { w t with density := updF (w t).density x y ((w t).density x y + value) }
    else w t

/-- Zero the entire live density buffer of tile `tid`. -/
def zeroTileDensity (w : AWorld) (tid : ℕ) : AWorld :=
  fun t => if t = tid then { w t with density := zeroField } else w t

/-- Overwrite the history buffer of tile `tid` at cell `c`. -/
def updOldCell (w : AWorld) (tid : ℕ) (c : ℕ × ℕ) (v : ℚ) : AWorld :=
  fun t =>
    if t = tid then { w t with oldDensity := updF (w t).oldDensity c.1 c.2 v }
    else w t

/-- `CompoundCloudSystem::addCloudDensity`: route a deposit whose
coordinate on the x axis is outside `[0, W)` to the left/right neighbor
(wrapping the column), then independently route the y axis through that
tile's upper/lower neighbor; drop the deposit (returning the world
unchanged) whenever a required neighbor reference is null. -/
def addCloudDensity (W H : ℕ) (w : AWorld) (self : ℕ) (x y : ℤ) (value : ℚ) : AWorld :=
  match (if x < 0 then (w self).left else if (W : ℤ) ≤ x then (w self).right else some self) with
  | none => w
  | some xc =>
    match (if y < 0 then (w xc).upper else if (H : ℤ) ≤ y then (w xc).lower else some xc) with
    | none => w
    | some yc =>
      addTileDensity w yc
        (if x < 0 then (W : ℤ) - 1 else if (W : ℤ) ≤ x then 0 else x).toNat
        (if y < 0 then (H : ℤ) - 1 else if (H : ℤ) ≤ y then 0 else y).toNat
        value

/-- The body of the second double loop of `CompoundCloudSystem::advect`
for one cell `c`: skip cells whose post-diffusion history value is not
above `1`; otherwise sample the velocity field at the cell's world
position, damp by viscosity, project the cell forward to
`(x + dt*vx, y + dt*vy)`, clamp to `[0.5, dim - 1.5]`, and splat the
history value bilinearly onto the four surrounding cells. -/
def advectCell (W H : ℕ) (dt res : ℚ) (vel : ℚ × ℚ → ℚ × ℚ) (pos : ℚ × ℚ)
    (self : ℕ) (w : AWorld) (c : ℕ × ℕ) : AWorld :=
  if 1 < (w self).oldDensity c.1 c.2 then
    let v := vel (pos.1 + (c.1 : ℚ) * res, pos.2 + (c.2 : ℚ) * res)
    let vx := v.1 / (w self).viscosity
    let vy := v.2 / (w self).viscosity
    let dx := qClamp ((c.1 : ℚ) + dt * vx) (1/2) ((W : ℚ) - 3/2)
    let dy := qClamp ((c.2 : ℚ) + dt * vy) (1/2) ((H : ℚ) - 3/2)
    let x0 : ℤ := cppTruncQ dx
    let x1 : ℤ := x0 + 1
    let y0 : ℤ := cppTruncQ dy
    let y1 : ℤ := y0 + 1
    let s1 : ℚ := dx - (x0 : ℚ)
    let s0 : ℚ := 1 - s1
    let t1 : ℚ := dy - (y0 : ℚ)
    let t0 : ℚ := 1 - t1
    let w1 := addCloudDensity W H w self x0 y0 ((w self).oldDensity c.1 c.2 * s0 * t0)
    let w2 := addCloudDensity W H w1 self x0 y1 ((w1 self).oldDensity c.1 c.2 * s0 * t1)
    let w3 := addCloudDensity W H w2 self x1 y0 ((w2 self).oldDensity c.1 c.2 * s1 * t0)
    addCloudDensity W H w3 self x1 y1 ((w3 self).oldDensity c.1 c.2 * s1 * t1)
  else w

/-- `CompoundCloudSystem::advect` for one tile and one slot: zero the
entire live density buffer, then splat every history cell above the `1`
threshold. -/
def advect (W H : ℕ) (dt res : ℚ) (vel : ℚ × ℚ → ℚ × ℚ) (pos : ℚ × ℚ)
    (self : ℕ) (w : AWorld) : AWorld :=
  (cellsRM W H).foldl (advectCell W H dt res vel pos self) (zeroTileDensity w self)

/-- Two tile graphs that agree on everything except possibly the history
buffers: equal live densities, viscosities and neighbor references. -/
def EqExceptOld (w1 w2 : AWorld) : Prop :=
  ∀ t, (w1 t).density = (w2 t).density ∧ (w1 t).viscosity = (w2 t).viscosity ∧
    (w1 t).upper = (w2 t).upper ∧ (w1 t).lower = (w2 t).lower ∧
    (w1 t).left = (w2 t).left ∧ (w1 t).right = (w2 t).right

/-- A history buffer holding `1` at cell `(0, 0)` and `0` elsewhere. -/
def cexOld : Field := fun x y => if x = 0 ∧ y = 0 then 1 else 0

/-- All four neighbor buffers absent (an isolated tile). -/
def cexNb : NeighborOlds where
  upper := none
  lower := none
  left := none
  right := none

/-- A constant velocity field pointing strongly in the negative x
direction. -/
def demoVel : ℚ × ℚ → ℚ × ℚ := fun _ => (-1000, 0)

/-- A lone edge tile (all four neighbor references null) with history
density `100` at cell `(0, 0)` and `0` elsewhere. -/
def demoATile : ATile where
  density := zeroField
  oldDensity := fun x y => if x = 0 ∧ y = 0 then 100 else 0
  viscosity := 1
  upper := none
  lower := none
  left := none
  right := none

/-- The world in which every tile id resolves to the lone demo tile. -/
def demoAWorld : AWorld := fun _ => demoATile

/-- A tile as the recentering engine sees it: its world-space center and
its compound-group id (the id of `clouds[0]`). -/
structure PTile where
  pos : ℚ × ℚ
  groupId : ℕ
deriving DecidableEq

instance : Inhabited PTile := ⟨⟨(0, 0), 0⟩⟩

/-- Modelled from the spec: `calculateGridPositions` (defined in a header
that is not among the sources): the 9 tile-center positions of the 3x3
neighborhood around `center`, at offsets `{-E, 0, E}` per axis, paired
with their `Int2` grid coordinates in `{-1, 0, 1}^2`. -/
def calculateGridPositions (extX extZ : ℚ) (center : ℚ × ℚ) : List ((ℤ × ℤ) × (ℚ × ℚ)) :=
  [(-1, -1), (0, -1), (1, -1), (-1, 0), (0, 0), (1, 0), (-1, 1), (0, 1), (1, 1)].map
    (fun ij => (ij, (center.1 + (ij.1 : ℚ) * extX, center.2 + (ij.2 : ℚ) * extZ)))

/-- The group start indices visited by
`for (i = 0; i < cloudTypes.size; i += CLOUDS_IN_ONE)`. -/
def groupStarts (n : ℕ) : List ℕ := (List.range ((n + 3) / 4)).map (· * 4)

/-- The initial spawning loops of `doSpawnCycle`: one `_spawnCloud` per
(group start, required position), producing a tile whose group id is
`cloudTypes[start]` (the id of its first slot). -/
def spawnForGroups (cloudTypes : List ℕ) (positions : List (ℚ × ℚ)) :
    List ℕ → List PTile
  | [] => []
  | i :: is =>
    positions.map (fun p => PTile.mk p (cloudTypes.getD i 0)) ++
      spawnForGroups cloudTypes positions is

/-- All tiles created by the initial spawn. -/
def initialSpawn (cloudTypes : List ℕ) (positions : List (ℚ × ℚ)) : List PTile :=
  spawnForGroups cloudTypes positions (groupStarts cloudTypes.length)

/-- `Float3::HAddAbs` of the difference of two X/Z positions. -/
def hAddAbs (p q : ℚ × ℚ) : ℚ := |p.1 - q.1| + |p.2 - q.2|

/-- The epsilon position match used by `applyNewCloudPositioning`. -/
def nearPos (eps : ℚ) (p q : ℚ × ℚ) : Bool := decide (hAddAbs p q < eps)

/-- Phase 1 of `applyNewCloudPositioning`: indices of tiles near no
required position (the `m_tooFarAwayClouds` scan), in order. -/
def straysOf (eps : ℚ) (req : List ((ℤ × ℤ) × (ℚ × ℚ))) (tiles : List PTile) : List ℕ :=
  (List.range tiles.length).filter
    (fun n => !(req.any (fun r => nearPos eps (tiles.getD n default).pos r.2)))

/-- The `hasCloud` re-scan of phase 2 of `applyNewCloudPositioning`. -/
def hasCloudAt (eps : ℚ) (tiles : List PTile) (g : ℕ) (p : ℚ × ℚ) : Bool :=
  tiles.any (fun t => nearPos eps t.pos p && (t.groupId == g))

/-- Find the first unconsumed stray tile of group `g`. -/
def findStray (tiles : List PTile) (strays : List ℕ) (g : ℕ) : Option ℕ :=
  strays.find? (fun n => (tiles.getD n default).groupId == g)

/-- Phase 2 of `applyNewCloudPositioning` for one (group, required
position) pair: if no tile of the group sits at the position, recycle
the first remaining stray of the group to it (`recycleToPosition` resets
the position; the stray is consumed), and fail fatally when none
remains. -/
def fillOne (eps : ℚ) (g : ℕ) (p : ℚ × ℚ) (st : List PTile × List ℕ) :
    Except String (List PTile × List ℕ) :=
  if hasCloudAt eps st.1 g p then .ok st
  else
    match findStray st.1 st.2 g with
    | some n => .ok (st.1.set n (PTile.mk p (st.1.getD n default).groupId), st.2.erase n)
    | none => .error "CompoundCloudSystem: Logic error in moving far clouds"

/-- Phase 2 inner loop over the required positions of one group. -/
def fillPositions (eps : ℚ) (g : ℕ) :
    List ((ℤ × ℤ) × (ℚ × ℚ)) → List PTile × List ℕ → Except String (List PTile × List ℕ)
  | [], st => .ok st
  | r :: rs, st =>
    match fillOne eps g r.2 st with
    | .error e => .error e
    | .ok st2 => fillPositions eps g rs st2

/-- Phase 2 outer loop over the compound groups. -/
def fillGroups (eps : ℚ) (req : List ((ℤ × ℤ) × (ℚ × ℚ))) :
    List ℕ → List PTile × List ℕ → Except String (List PTile × List ℕ)
  | [], st => .ok st
  | g :: gs, st =>
    match fillPositions eps g req st with
    | .error e => .error e
    | .ok st2 => fillGroups eps req gs st2

/-- The compound-group ids, one per group start index. -/
def groupIds (cloudTypes : List ℕ) : List ℕ :=
  (groupStarts cloudTypes.length).map (fun i => cloudTypes.getD i 0)

/-- `CompoundCloudSystem::applyNewCloudPositioning`: mark the stray
tiles, fill every (group, required position) pair lacking a tile from
the strays of that group, and fail fatally when a needed stray is
missing or one remains unconsumed. -/
def applyNewCloudPositioning (eps extX extZ : ℚ) (cloudTypes : List ℕ) (center : ℚ × ℚ)
    (tiles : List PTile) : Except String (List PTile) :=
  match fillGroups eps (calculateGridPositions extX extZ center) (groupIds cloudTypes)
      (tiles, straysOf eps (calculateGridPositions extX extZ center) tiles) with
  | .error e => .error e
  | .ok st =>
    if st.2 = [] then .ok st.1
    else .error "CompoundCloudSystem: Logic error in moving far clouds, a cloud that should have been moved was not moved"

/-- The tile-count formula asserted by `doSpawnCycle`:
`(((n + 4 - 1) / 4) * 4 / 4) * 9`. -/
def cloudCountFormula (n : ℕ) : ℕ := (n + 4 - 1) / 4 * 4 / 4 * 9

/-- The recentering state: the current grid center and the managed
tiles. -/
structure SysState where
  gridCenter : ℚ × ℚ
  tiles : List PTile
deriving DecidableEq

/-- `CompoundCloudSystem::doSpawnCycle`: spawn the full tile set when
none exists yet (grid center at the origin), assert the tile-count
formula fatally, then recompute the snapped grid center from the player
position and reposition only when it moved.  The returned flag records
whether the repositioning path ran on the non-initial branch. -/
def doSpawnCycle (eps extX extZ : ℚ) (cloudTypes : List ℕ) (s : SysState)
    (playerPos : ℚ × ℚ) : Except String (SysState × Bool) :=
  match (if s.tiles.isEmpty then
      (match applyNewCloudPositioning eps extX extZ cloudTypes (0, 0)
          (initialSpawn cloudTypes
            ((calculateGridPositions extX extZ (0, 0)).map Prod.snd)) with
       | .error e => .error e
       | .ok tiles1 => .ok (SysState.mk (0, 0) tiles1))
    else .ok s : Except String SysState) with
  | .error e => .error e
  | .ok s1 =>
    if s1.tiles.length = cloudCountFormula cloudTypes.length then
      (if s1.gridCenter = calculateGridCenterForPlayerPos extX extZ playerPos then
        .ok (s1, false)
      else
        match applyNewCloudPositioning eps extX extZ cloudTypes
            (calculateGridCenterForPlayerPos extX extZ playerPos) s1.tiles with
        | .error e => .error e
        | .ok tiles2 =>
          .ok (SysState.mk (calculateGridCenterForPlayerPos extX extZ playerPos) tiles2, true))
    else .error "A CompoundCloud entity has mysteriously been destroyed"

/-- The states, tiles and positions used to witness the count
invariants: five compound types in two groups. -/
def countDemoTypes : List ℕ := [1, 2, 3, 4, 5]

/-- A full 9-tile state of one compound group (id `1`) on the
origin-centered grid with extent `200`. -/
def noopDemoState : SysState :=
  SysState.mk (0, 0)
    (initialSpawn [1] ((calculateGridPositions 200 200 (0, 0)).map Prod.snd))

end CloudSys

namespace CloudSys

section Geometry

/-- Containment in a tile forces the half-extent to be positive. -/
lemma pos_half_of_contains {h c w : ℚ} (h1 : c - h ≤ w) (h2 : w < c + h) : 0 < h := by
  nlinarith

/-- The half-open interval around two centers an exact nonzero multiple of
the full extent apart cannot share a point. -/
lemma interval_disjoint (h c1 c2 w : ℚ) (k : ℤ) (hk : k ≠ 0)
    (hdiff : c2 - c1 = (k : ℚ) * (2 * h))
    (m1 : c1 - h ≤ w) (m2 : w < c1 + h) (m3 : c2 - h ≤ w) (m4 : w < c2 + h) : False := by
  have hpos : 0 < h := pos_half_of_contains m1 m2
  have habs : |(k : ℚ)| * (2 * h) < 2 * h := by
    rcases abs_cases (k : ℚ) with ⟨he, _⟩ | ⟨he, _⟩ <;> rw [he] <;> nlinarith
  have hk1 : (1 : ℚ) ≤ |(k : ℚ)| := by
    have h1 : (1 : ℤ) ≤ |k| := Int.one_le_abs hk
    exact_mod_cast h1
  nlinarith

end Geometry

/-- C5: `cloudContainsPosition` is exactly the half-open rectangle test
`center - half ≤ p < center + half` on both axes, and two tiles whose
centers differ by a nonzero integer multiple of the corresponding full
tile extent (`2 * half`) on either axis contain no common world point. -/
theorem containsPosition_halfopen_and_exclusive (halfW halfH : ℚ) :
    (∀ c w : ℚ × ℚ, cloudContainsPosition halfW halfH c w = true ↔
      (c.1 - halfW ≤ w.1 ∧ w.1 < c.1 + halfW ∧ c.2 - halfH ≤ w.2 ∧ w.2 < c.2 + halfH)) ∧
    (∀ c1 c2 w : ℚ × ℚ, ∀ k : ℤ, k ≠ 0 →
      (c2.1 - c1.1 = (k : ℚ) * (2 * halfW) ∨ c2.2 - c1.2 = (k : ℚ) * (2 * halfH)) →
      ¬(cloudContainsPosition halfW halfH c1 w = true ∧
        cloudContainsPosition halfW halfH c2 w = true)) := by
  have hiff : ∀ c w : ℚ × ℚ, cloudContainsPosition halfW halfH c w = true ↔
      (c.1 - halfW ≤ w.1 ∧ w.1 < c.1 + halfW ∧ c.2 - halfH ≤ w.2 ∧ w.2 < c.2 + halfH) := by
    intro c w
    simp only [cloudContainsPosition, Bool.not_eq_true', Bool.or_eq_false_iff,
      decide_eq_false_iff_not, not_lt, ge_iff_le, not_le]
    constructor
    · rintro ⟨⟨⟨h1, h2⟩, h3⟩, h4⟩
      exact ⟨h1, h2, h3, h4⟩
    · rintro ⟨h1, h2, h3, h4⟩
      exact ⟨⟨⟨h1, h2⟩, h3⟩, h4⟩
  refine ⟨hiff, ?_⟩
  rintro c1 c2 w k hk hdiff ⟨hc1, hc2⟩
  rw [hiff] at hc1 hc2
  obtain ⟨a1, a2, a3, a4⟩ := hc1
  obtain ⟨b1, b2, b3, b4⟩ := hc2
  rcases hdiff with h | h
  · exact interval_disjoint halfW c1.1 c2.1 w.1 k hk h a1 a2 b1 b2
  · exact interval_disjoint halfH c1.2 c2.2 w.2 k hk h a3 a4 b3 b4

/-- Closed-form instance of `containsPosition_halfopen_and_exclusive`
at concrete values. -/
theorem containsPosition_halfopen_and_exclusive_witness :
    (∀ c w : ℚ × ℚ, cloudContainsPosition 100 100 c w = true ↔
      (c.1 - 100 ≤ w.1 ∧ w.1 < c.1 + 100 ∧ c.2 - 100 ≤ w.2 ∧ w.2 < c.2 + 100)) ∧
    (∀ c1 c2 w : ℚ × ℚ, ∀ k : ℤ, k ≠ 0 →
      (c2.1 - c1.1 = (k : ℚ) * (2 * 100) ∨ c2.2 - c1.2 = (k : ℚ) * (2 * 100)) →
      ¬(cloudContainsPosition 100 100 c1 w = true ∧
        cloudContainsPosition 100 100 c2 w = true)) :=
  containsPosition_halfopen_and_exclusive 100 100

/-- C7: converting the world point lying in cell `(x, y)` of the tile
centered at `c` (the tile's top-left corner plus `(x, y)` cell extents
plus a sub-cell offset) back through `convertWorldToCloudLocal` succeeds
and returns exactly `(x, y)`. -/
theorem worldToTile_left_inverse (halfW halfH res : ℚ) (W H : ℕ) (c : ℚ × ℚ)
    (x y : ℕ) (e1 e2 : ℚ) (hres : 0 < res) (hx : x < W) (hy : y < H)
    (he1 : 0 ≤ e1) (he1' : e1 < res) (he2 : 0 ≤ e2) (he2' : e2 < res) :
    convertWorldToCloudLocal halfW halfH res W H c
      (c.1 - halfW + (x : ℚ) * res + e1, c.2 - halfH + (y : ℚ) * res + e2) = some (x, y) := by
  have hfl : ∀ (n : ℕ) (e : ℚ), 0 ≤ e → e < res → ⌊((n : ℚ) * res + e) / res⌋ = (n : ℤ) := by
    intro n e he he'
    have hne : res ≠ 0 := ne_of_gt hres
    have : ((n : ℚ) * res + e) / res = (n : ℚ) + e / res := by
      field_simp
    rw [this]
    have h0 : (0 : ℚ) ≤ e / res := div_nonneg he (le_of_lt hres)
    have h1 : e / res < 1 := (div_lt_one hres).mpr he'
    rw [Int.floor_eq_iff]
    constructor
    · push_cast; linarith
    · push_cast; linarith
  unfold convertWorldToCloudLocal
  have harg1 : c.1 - halfW + (x : ℚ) * res + e1 - (c.1 - halfW) = (x : ℚ) * res + e1 := by ring
  have harg2 : c.2 - halfH + (y : ℚ) * res + e2 - (c.2 - halfH) = (y : ℚ) * res + e2 := by ring
  simp only [harg1, harg2, hfl x e1 he1 he1', hfl y e2 he2 he2']
  have hcond : 0 ≤ (x : ℤ) ∧ (x : ℤ) < (W : ℤ) ∧ 0 ≤ (y : ℤ) ∧ (y : ℤ) < (H : ℤ) := by
    refine ⟨Int.ofNat_nonneg x, ?_, Int.ofNat_nonneg y, ?_⟩
    · exact_mod_cast hx
    · exact_mod_cast hy
  rw [if_pos hcond]
  simp

/-- Concrete instance of `worldToTile_left_inverse`: tile centered at
`(300, -100)`, cell `(7, 3)` of a `50 x 50` grid with resolution `4`. -/
theorem worldToTile_left_inverse_witness :
    convertWorldToCloudLocal 100 100 4 50 50 (300, -100)
      ((300 : ℚ) - 100 + (7 : ℚ) * 4 + 1, (-100 : ℚ) - 100 + (3 : ℚ) * 4 + 3) = some (7, 3) :=
  worldToTile_left_inverse 100 100 4 50 50 (300, -100) 7 3 1 3
    (by norm_num) (by norm_num) (by norm_num) (by norm_num) (by norm_num)
    (by norm_num) (by norm_num)

/-- C2: on the standard 3x3 assignment, the tile at grid coordinate
`(0, 0)` receives as its left neighbor the tile at `(0, -1)` (the tile
ABOVE it, which is also exactly its upper neighbor) and as its right
neighbor the tile at `(0, 1)` (the tile below it), not the tiles at
`(-1, 0)` and `(1, 0)` that the claim (and the stencil code that consumes
`m_leftCloud` / `m_rightCloud`) requires. -/
theorem setUpCloudLinks_left_right_use_y_axis :
    (setUpCloudLinksFor demoAssignment (0, 0) 0).leftCloud = demoAssignment (0, -1) 0 ∧
    (setUpCloudLinksFor demoAssignment (0, 0) 0).rightCloud = demoAssignment (0, 1) 0 ∧
    (setUpCloudLinksFor demoAssignment (0, 0) 0).leftCloud =
      (setUpCloudLinksFor demoAssignment (0, 0) 0).upperCloud ∧
    demoAssignment (0, -1) 0 ≠ demoAssignment (-1, 0) 0 ∧
    demoAssignment (0, 1) 0 ≠ demoAssignment (1, 0) 0 := by
  refine ⟨rfl, rfl, rfl, ?_, ?_⟩ <;> decide

section DiffuseLemmas

/-- Unfolding equation of `diffuseRec` with plain conditionals. -/
lemma diffuseRec_unfold (W H : ℕ) (a : ℚ) (density old : Field) (nb : NeighborOlds) (x y : ℕ) :
    diffuseRec W H a density old nb x y =
      density x y * (1 - a) +
        ((if 0 < y then diffuseRec W H a density old nb x (y - 1)
          else optAt nb.upper x (H - 1)) +
         (if y < H - 1 then old x (y + 1) else optAt nb.lower x 0) +
         (if 0 < x then diffuseRec W H a density old nb (x - 1) y
          else optAt nb.left (W - 1) y) +
         (if x < W - 1 then old (x + 1) y else optAt nb.right 0 y)) * a / 4 := by
  rw [diffuseRec]
  simp only [dite_eq_ite]

/-- Invariant of the inner `for y` loop of `diffuse` over column `x`:
starting from a state that holds the recurrence's values on all cells
processed so far (the full columns left of `x` and the rows of column `x`
below `j`) and the original `old` values elsewhere, folding the remaining
rows of the column extends the processed region to the whole column. -/
lemma diffuse_col_inv (W H : ℕ) (a : ℚ) (density old : Field) (nb : NeighborOlds) (x : ℕ) :
    ∀ (n j : ℕ) (g : Field), j + n = H →
    (∀ p q, (p < x ∧ q < H) ∨ (p = x ∧ q < j) → g p q = diffuseRec W H a density old nb p q) →
    (∀ p q, ¬((p < x ∧ q < H) ∨ (p = x ∧ q < j)) → g p q = old p q) →
    (∀ p q, (p < x ∧ q < H) ∨ (p = x ∧ q < H) →
      List.foldl (diffuseStep W H a density nb) g (colCellsFrom x j n) p q
        = diffuseRec W H a density old nb p q) ∧
    (∀ p q, ¬((p < x ∧ q < H) ∨ (p = x ∧ q < H)) →
      List.foldl (diffuseStep W H a density nb) g (colCellsFrom x j n) p q = old p q) := by
  intro n
  induction n with
  | zero =>
    intro j g hj h1 h2
    have hjH : j = H := by omega
    subst hjH
    exact ⟨fun p q hpq => h1 p q hpq, fun p q hpq => h2 p q hpq⟩
  | succ n ih =>
    intro j g hj h1 h2
    have hjH : j < H := by omega
    rw [colCellsFrom, List.foldl_cons]
    have hnew : diffuseStep W H a density nb g (x, j) x j
        = diffuseRec W H a density old nb x j := by
      show updF g x j _ x j = _
      rw [updF, if_pos ⟨rfl, rfl⟩, diffuseRec_unfold]
      have hA : (if 0 < j then g x (j - 1) else optAt nb.upper x (H - 1))
          = (if 0 < j then diffuseRec W H a density old nb x (j - 1)
             else optAt nb.upper x (H - 1)) := by
        by_cases hcase : 0 < j
        · rw [if_pos hcase, if_pos hcase, h1 x (j - 1) (Or.inr ⟨rfl, by omega⟩)]
        · rw [if_neg hcase, if_neg hcase]
      have hB : (if j < H - 1 then g x (j + 1) else optAt nb.lower x 0)
          = (if j < H - 1 then old x (j + 1) else optAt nb.lower x 0) := by
        by_cases hcase : j < H - 1
        · rw [if_pos hcase, if_pos hcase, h2 x (j + 1) (by omega)]
        · rw [if_neg hcase, if_neg hcase]
      have hC : (if 0 < x then g (x - 1) j else optAt nb.left (W - 1) j)
          = (if 0 < x then diffuseRec W H a density old nb (x - 1) j
             else optAt nb.left (W - 1) j) := by
        by_cases hcase : 0 < x
        · rw [if_pos hcase, if_pos hcase, h1 (x - 1) j (Or.inl ⟨by omega, hjH⟩)]
        · rw [if_neg hcase, if_neg hcase]
      have hD : (if x < W - 1 then g (x + 1) j else optAt nb.right 0 j)
          = (if x < W - 1 then old (x + 1) j else optAt nb.right 0 j) := by
        by_cases hcase : x < W - 1
        · rw [if_pos hcase, if_pos hcase, h2 (x + 1) j (by omega)]
        · rw [if_neg hcase, if_neg hcase]
      rw [hA, hB, hC, hD]
    apply ih (j + 1) (diffuseStep W H a density nb g (x, j)) (by omega)
    · intro p q hpq
      by_cases hc : p = x ∧ q = j
      · obtain ⟨rfl, rfl⟩ := hc
        exact hnew
      · show updF g x j _ p q = _
        rw [updF, if_neg hc]
        exact h1 p q (by omega)
    · intro p q hpq
      have hc : ¬(p = x ∧ q = j) := by omega
      show updF g x j _ p q = _
      rw [updF, if_neg hc]
      exact h2 p q (by omega)

/-- Invariant of the outer `for x` loop of `diffuse`. -/
lemma diffuse_rows_inv (W H : ℕ) (a : ℚ) (density old : Field) (nb : NeighborOlds) :
    ∀ (n i : ℕ) (g : Field), i + n = W →
    (∀ p q, p < i ∧ q < H → g p q = diffuseRec W H a density old nb p q) →
    (∀ p q, ¬(p < i ∧ q < H) → g p q = old p q) →
    (∀ p q, p < W → q < H →
      List.foldl (diffuseStep W H a density nb) g (rowsFrom H i n) p q
        = diffuseRec W H a density old nb p q) ∧
    (∀ p q, ¬(p < W ∧ q < H) →
      List.foldl (diffuseStep W H a density nb) g (rowsFrom H i n) p q = old p q) := by
  intro n
  induction n with
  | zero =>
    intro i g hi h1 h2
    have hiW : i = W := by omega
    subst hiW
    exact ⟨fun p q hp hq => h1 p q ⟨hp, hq⟩, fun p q hpq => h2 p q hpq⟩
  | succ n ih =>
    intro i g hi h1 h2
    rw [rowsFrom, List.foldl_append]
    have hcol := diffuse_col_inv W H a density old nb i H 0 g (by omega)
      (fun p q hpq => h1 p q (by omega))
      (fun p q hpq => h2 p q (by omega))
    apply ih (i + 1) _ (by omega)
    · intro p q hpq
      exact hcol.1 p q (by omega)
    · intro p q hpq
      exact hcol.2 p q (by omega)

/-- The in-place double loop of `diffuse` computes `diffuseRec` at every
cell of the grid. -/
lemma diffuse_foldl_eq_rec (W H : ℕ) (diffRate dt : ℚ) (density old : Field)
    (nb : NeighborOlds) (x y : ℕ) (hx : x < W) (hy : y < H) :
    diffuse W H diffRate dt density old nb x y
      = diffuseRec W H (dt * diffRate) density old nb x y := by
  have h := diffuse_rows_inv W H (dt * diffRate) density old nb W 0 old (by omega)
    (fun p q hpq => absurd hpq.1 (by omega))
    (fun p q _ => rfl)
  exact h.1 x y hx hy

end DiffuseLemmas

/-- C1 (amended): one diffusion pass updates the history buffer in place,
in row-major order; the value left at any cell `(x, y)` of the grid is
`density[x][y] * (1 - dt*diffRate) + (up + down + left + right) * (dt*diffRate) / 4`,
where `density` is the LIVE density buffer (not the history buffer), the
`up`/`left` stencil reads within the tile see the values already updated
by this same pass, the `down`/`right` reads see last tick's history
values, and reads falling off the field edge come from the adjacent
tile's (unmodified) history buffer when that neighbor exists and are `0`
otherwise — as captured by the recurrence `diffuseRec`. -/
theorem diffuse_inplace_recurrence (W H : ℕ) (diffRate dt : ℚ) (density old : Field)
    (nb : NeighborOlds) (x y : ℕ) (hx : x < W) (hy : y < H) :
    diffuse W H diffRate dt density old nb x y
      = diffuseRec W H (dt * diffRate) density old nb x y :=
  diffuse_foldl_eq_rec W H diffRate dt density old nb x y hx hy

/-- Concrete instance of `diffuse_inplace_recurrence` on a `2 x 2`
grid. -/
theorem diffuse_inplace_recurrence_witness :
    diffuse 2 2 (7/1000) 100 zeroField cexOld cexNb 1 1
      = diffuseRec 2 2 (100 * (7/1000)) zeroField cexOld cexNb 1 1 :=
  diffuse_inplace_recurrence 2 2 (7/1000) 100 zeroField cexOld cexNb 1 1
    (by norm_num) (by norm_num)

/-- C1 counterexample: on a `2 x 2` tile with no neighbors, live density
all zero and history density `1` at cell `(0, 0)`, with
`a = dt * diffRate = 100 * 7/1000 = 7/10`: the pass writes `0` at
`(0, 0)` (the center term reads the live density buffer, which is zero),
while the claim's formula `old[0][0] * (1 - a) + (up+down+left+right) * a/4`
predicts `3/10`. -/
theorem diffuse_center_reads_live_density :
    diffuse 2 2 (7/1000) 100 zeroField cexOld cexNb 0 0 = 0 ∧
    diffuseSpecFormula 2 2 (100 * (7/1000)) cexOld cexNb 0 0 = 3/10 ∧
    diffuse 2 2 (7/1000) 100 zeroField cexOld cexNb 0 0 ≠
      diffuseSpecFormula 2 2 (100 * (7/1000)) cexOld cexNb 0 0 := by
  have hcode : diffuse 2 2 (7/1000) 100 zeroField cexOld cexNb 0 0 = 0 := by
    rw [diffuse_foldl_eq_rec 2 2 (7/1000) 100 zeroField cexOld cexNb 0 0
      (by norm_num) (by norm_num)]
    rw [diffuseRec_unfold]
    norm_num [cexOld, cexNb, optAt, zeroField]
  have hspec : diffuseSpecFormula 2 2 (100 * (7/1000)) cexOld cexNb 0 0 = 3/10 := by
    unfold diffuseSpecFormula
    norm_num [cexOld, cexNb, optAt]
  refine ⟨hcode, hspec, ?_⟩
  rw [hcode, hspec]
  norm_num

section AdvectLemmas

/-- Cells produced by the inner loop: column `x`, rows `[j, j + n)`. -/
lemma mem_colCellsFrom (x : ℕ) :
    ∀ (n j : ℕ) (d : ℕ × ℕ), d ∈ colCellsFrom x j n → d.1 = x ∧ d.2 < j + n := by
  intro n
  induction n with
  | zero => intro j d h; cases h
  | succ n ih =>
    intro j d h
    rw [colCellsFrom] at h
    rcases List.mem_cons.mp h with rfl | h
    · exact ⟨rfl, by omega⟩
    · obtain ⟨h1, h2⟩ := ih (j + 1) d h
      exact ⟨h1, by omega⟩

/-- Cells produced by the outer loop: columns `[i, i + n)`, rows
`[0, H)`. -/
lemma mem_rowsFrom (H : ℕ) :
    ∀ (n i : ℕ) (d : ℕ × ℕ), d ∈ rowsFrom H i n → d.1 < i + n ∧ d.2 < H := by
  intro n
  induction n with
  | zero => intro i d h; cases h
  | succ n ih =>
    intro i d h
    rw [rowsFrom] at h
    rcases List.mem_append.mp h with h | h
    · obtain ⟨h1, h2⟩ := mem_colCellsFrom i H 0 d h
      exact ⟨by omega, by omega⟩
    · obtain ⟨h1, h2⟩ := ih (i + 1) d h
      exact ⟨by omega, h2⟩

/-- Every enumerated cell lies inside the grid. -/
lemma mem_cellsRM (W H : ℕ) (d : ℕ × ℕ) (h : d ∈ cellsRM W H) : d.1 < W ∧ d.2 < H := by
  have := mem_rowsFrom H W 0 d h
  omega

/-- `addTileDensity` leaves every history buffer unchanged. -/
lemma addTileDensity_old (w : AWorld) (tid : ℕ) (x y : ℕ) (v : ℚ) (t : ℕ) :
    (addTileDensity w tid x y v t).oldDensity = (w t).oldDensity := by
  unfold addTileDensity
  split <;> rfl

/-- `zeroTileDensity` leaves every history buffer unchanged. -/
lemma zeroTileDensity_old (w : AWorld) (tid t : ℕ) :
    (zeroTileDensity w tid t).oldDensity = (w t).oldDensity := by
  unfold zeroTileDensity
  split <;> rfl

/-- `updOldCell` leaves every live density unchanged. -/
lemma updOldCell_density (w : AWorld) (s : ℕ) (c : ℕ × ℕ) (u : ℚ) (t : ℕ) :
    (updOldCell w s c u t).density = (w t).density := by
  unfold updOldCell
  split <;> rfl

lemma updOldCell_viscosity (w : AWorld) (s : ℕ) (c : ℕ × ℕ) (u : ℚ) (t : ℕ) :
    (updOldCell w s c u t).viscosity = (w t).viscosity := by
  unfold updOldCell
  split <;> rfl

lemma updOldCell_upper (w : AWorld) (s : ℕ) (c : ℕ × ℕ) (u : ℚ) (t : ℕ) :
    (updOldCell w s c u t).upper = (w t).upper := by
  unfold updOldCell
  split <;> rfl

lemma updOldCell_lower (w : AWorld) (s : ℕ) (c : ℕ × ℕ) (u : ℚ) (t : ℕ) :
    (updOldCell w s c u t).lower = (w t).lower := by
  unfold updOldCell
  split <;> rfl

lemma updOldCell_left (w : AWorld) (s : ℕ) (c : ℕ × ℕ) (u : ℚ) (t : ℕ) :
    (updOldCell w s c u t).left = (w t).left := by
  unfold updOldCell
  split <;> rfl

lemma updOldCell_right (w : AWorld) (s : ℕ) (c : ℕ × ℕ) (u : ℚ) (t : ℕ) :
    (updOldCell w s c u t).right = (w t).right := by
  unfold updOldCell
  split <;> rfl

lemma zeroTileDensity_viscosity (w : AWorld) (tid t : ℕ) :
    (zeroTileDensity w tid t).viscosity = (w t).viscosity := by
  unfold zeroTileDensity
  split <;> rfl

lemma zeroTileDensity_upper (w : AWorld) (tid t : ℕ) :
    (zeroTileDensity w tid t).upper = (w t).upper := by
  unfold zeroTileDensity
  split <;> rfl

lemma zeroTileDensity_lower (w : AWorld) (tid t : ℕ) :
    (zeroTileDensity w tid t).lower = (w t).lower := by
  unfold zeroTileDensity
  split <;> rfl

lemma zeroTileDensity_left (w : AWorld) (tid t : ℕ) :
    (zeroTileDensity w tid t).left = (w t).left := by
  unfold zeroTileDensity
  split <;> rfl

lemma zeroTileDensity_right (w : AWorld) (tid t : ℕ) :
    (zeroTileDensity w tid t).right = (w t).right := by
  unfold zeroTileDensity
  split <;> rfl

/-- `addCloudDensity` leaves every history buffer unchanged. -/
lemma addCloudDensity_old (W H : ℕ) (w : AWorld) (self : ℕ) (x y : ℤ) (v : ℚ) (t : ℕ) :
    (addCloudDensity W H w self x y v t).oldDensity = (w t).oldDensity := by
  unfold addCloudDensity
  rcases hsc : (if x < 0 then (w self).left else
      if (W : ℤ) ≤ x then (w self).right else some self) with _ | xc
  · simp only [hsc]
  · simp only [hsc]
    rcases hsc2 : (if y < 0 then (w xc).upper else
        if (H : ℤ) ≤ y then (w xc).lower else some xc) with _ | yc
    · simp only [hsc2]
    · simp only [hsc2, addTileDensity_old]

/-- `advectCell` leaves every history buffer unchanged. -/
lemma advectCell_old (W H : ℕ) (dt res : ℚ) (vel : ℚ × ℚ → ℚ × ℚ) (pos : ℚ × ℚ)
    (self : ℕ) (w : AWorld) (c : ℕ × ℕ) (t : ℕ) :
    (advectCell W H dt res vel pos self w c t).oldDensity = (w t).oldDensity := by
  unfold advectCell
  split
  · simp only [addCloudDensity_old]
  · rfl

/-- `advectCell` does nothing on a cell whose history value is not above
the `1` threshold. -/
lemma advectCell_skip (W H : ℕ) (dt res : ℚ) (vel : ℚ × ℚ → ℚ × ℚ) (pos : ℚ × ℚ)
    (self : ℕ) (w : AWorld) (c : ℕ × ℕ) (h : ¬ 1 < (w self).oldDensity c.1 c.2) :
    advectCell W H dt res vel pos self w c = w := by
  unfold advectCell
  rw [if_neg h]

/-- Folding `advectCell` over cells that are all below the threshold does
nothing. -/
lemma advect_fold_skip (W H : ℕ) (dt res : ℚ) (vel : ℚ × ℚ → ℚ × ℚ) (pos : ℚ × ℚ)
    (self : ℕ) (cells : List (ℕ × ℕ)) (w : AWorld)
    (h : ∀ d ∈ cells, ¬ 1 < (w self).oldDensity d.1 d.2) :
    List.foldl (advectCell W H dt res vel pos self) w cells = w := by
  induction cells with
  | nil => rfl
  | cons d ds ih =>
    rw [List.foldl_cons, advectCell_skip W H dt res vel pos self w d
      (h d (List.mem_cons_self d ds))]
    exact ih (fun d' hd' => h d' (List.mem_cons_of_mem d hd'))

/-- `addTileDensity` maps graphs that agree outside the history buffers
to graphs that agree outside the history buffers. -/
lemma addTileDensity_congr (tid : ℕ) (x y : ℕ) (v : ℚ) (w1 w2 : AWorld)
    (hsame : EqExceptOld w1 w2) :
    EqExceptOld (addTileDensity w1 tid x y v) (addTileDensity w2 tid x y v) := by
  intro t
  obtain ⟨hd, hv, hu, hlo, hl, hr⟩ := hsame t
  unfold addTileDensity
  by_cases ht : t = tid
  · rw [if_pos ht, if_pos ht]
    exact ⟨by rw [hd], hv, hu, hlo, hl, hr⟩
  · rw [if_neg ht, if_neg ht]
    exact hsame t

/-- `addCloudDensity` maps graphs that agree outside the history buffers
to graphs that agree outside the history buffers. -/
lemma addCloudDensity_congr (W H : ℕ) (self : ℕ) (x y : ℤ) (v : ℚ) (w1 w2 : AWorld)
    (hsame : EqExceptOld w1 w2) :
    EqExceptOld (addCloudDensity W H w1 self x y v) (addCloudDensity W H w2 self x y v) := by
  obtain ⟨-, -, -, -, hl, hr⟩ := hsame self
  unfold addCloudDensity
  rw [hl, hr]
  rcases hsc : (if x < 0 then (w2 self).left else
      if (W : ℤ) ≤ x then (w2 self).right else some self) with _ | xc
  · simp only [hsc]
    exact hsame
  · simp only [hsc]
    obtain ⟨-, -, hu, hlo, -, -⟩ := hsame xc
    rw [hu, hlo]
    rcases hsc2 : (if y < 0 then (w2 xc).upper else
        if (H : ℤ) ≤ y then (w2 xc).lower else some xc) with _ | yc
    · simp only [hsc2]
      exact hsame
    · simp only [hsc2]
      exact addTileDensity_congr _ _ _ _ w1 w2 hsame

/-- One `advectCell` step preserves agreement-outside-history between two
graphs whose histories differ at most at the below-threshold cell
`(self, c)`. -/
lemma advectCell_congr (W H : ℕ) (dt res : ℚ) (vel : ℚ × ℚ → ℚ × ℚ) (pos : ℚ × ℚ)
    (self : ℕ) (c d : ℕ × ℕ) (w1 w2 : AWorld)
    (hsame : EqExceptOld w1 w2)
    (hold : ∀ t x y, ¬(t = self ∧ x = c.1 ∧ y = c.2) →
      (w1 t).oldDensity x y = (w2 t).oldDensity x y)
    (hle1 : (w1 self).oldDensity c.1 c.2 ≤ 1)
    (hle2 : (w2 self).oldDensity c.1 c.2 ≤ 1) :
    EqExceptOld (advectCell W H dt res vel pos self w1 d)
      (advectCell W H dt res vel pos self w2 d) := by
  by_cases hdc : d.1 = c.1 ∧ d.2 = c.2
  · rw [advectCell_skip W H dt res vel pos self w1 d
        (by rw [hdc.1, hdc.2]; exact not_lt.mpr hle1),
      advectCell_skip W H dt res vel pos self w2 d
        (by rw [hdc.1, hdc.2]; exact not_lt.mpr hle2)]
    exact hsame
  · have holdd : (w1 self).oldDensity d.1 d.2 = (w2 self).oldDensity d.1 d.2 :=
      hold self d.1 d.2 (fun hcc => hdc ⟨hcc.2.1, hcc.2.2⟩)
    by_cases hg : 1 < (w2 self).oldDensity d.1 d.2
    · have hg1 : 1 < (w1 self).oldDensity d.1 d.2 := by rw [holdd]; exact hg
      unfold advectCell
      rw [if_pos hg1, if_pos hg]
      simp only [(hsame self).2.1, holdd, addCloudDensity_old]
      exact addCloudDensity_congr _ _ _ _ _ _ _ _
        (addCloudDensity_congr _ _ _ _ _ _ _ _
          (addCloudDensity_congr _ _ _ _ _ _ _ _
            (addCloudDensity_congr _ _ _ _ _ _ _ _ hsame)))
    · rw [advectCell_skip W H dt res vel pos self w1 d (by rw [holdd]; exact hg),
        advectCell_skip W H dt res vel pos self w2 d hg]
      exact hsame

/-- Folding `advectCell` preserves agreement-outside-history between two
graphs whose histories differ at most at the below-threshold cell
`(self, c)`. -/
lemma advect_foldl_congr (W H : ℕ) (dt res : ℚ) (vel : ℚ × ℚ → ℚ × ℚ) (pos : ℚ × ℚ)
    (self : ℕ) (c : ℕ × ℕ) (cells : List (ℕ × ℕ)) :
    ∀ (w1 w2 : AWorld), EqExceptOld w1 w2 →
    (∀ t x y, ¬(t = self ∧ x = c.1 ∧ y = c.2) →
      (w1 t).oldDensity x y = (w2 t).oldDensity x y) →
    (w1 self).oldDensity c.1 c.2 ≤ 1 →
    (w2 self).oldDensity c.1 c.2 ≤ 1 →
    EqExceptOld (List.foldl (advectCell W H dt res vel pos self) w1 cells)
      (List.foldl (advectCell W H dt res vel pos self) w2 cells) := by
  induction cells with
  | nil => intro w1 w2 hsame _ _ _; exact hsame
  | cons d ds ih =>
    intro w1 w2 hsame hold hle1 hle2
    rw [List.foldl_cons, List.foldl_cons]
    apply ih
    · exact advectCell_congr W H dt res vel pos self c d w1 w2 hsame hold hle1 hle2
    · intro t x y hne
      rw [advectCell_old, advectCell_old]
      exact hold t x y hne
    · rw [advectCell_old]
      exact hle1
    · rw [advectCell_old]
      exact hle2

/-- Reading the history buffer away from the overwritten cell. -/
lemma updOldCell_old_ne (w : AWorld) (self : ℕ) (c : ℕ × ℕ) (u : ℚ) (t x y : ℕ)
    (hne : ¬(t = self ∧ x = c.1 ∧ y = c.2)) :
    (updOldCell w self c u t).oldDensity x y = (w t).oldDensity x y := by
  unfold updOldCell
  by_cases h : t = self
  · rw [if_pos h]
    show updF (w t).oldDensity c.1 c.2 u x y = _
    unfold updF
    rw [if_neg (fun hxy => hne ⟨h, hxy.1, hxy.2⟩)]
  · rw [if_neg h]

/-- Reading the history buffer at the overwritten cell. -/
lemma updOldCell_old_self (w : AWorld) (self : ℕ) (c : ℕ × ℕ) (u : ℚ) :
    (updOldCell w self c u self).oldDensity c.1 c.2 = u := by
  unfold updOldCell
  rw [if_pos rfl]
  show updF (w self).oldDensity c.1 c.2 u c.1 c.2 = u
  unfold updF
  rw [if_pos ⟨rfl, rfl⟩]

end AdvectLemmas

/-- C10: the advection pass zeroes the live density buffer before
splatting and deposits only from history cells strictly above `1`:
when every history cell of the tile is at most `1` the pass leaves the
live density identically zero (the mass of those cells reaches the live
buffer nowhere), and zeroing out any single at-most-`1` history cell
changes no live density anywhere in the tile graph — its mass was
deposited nowhere to begin with. -/
theorem advect_zeroes_then_splats_only_above_threshold (W H : ℕ) (dt res : ℚ)
    (vel : ℚ × ℚ → ℚ × ℚ) (pos : ℚ × ℚ) (self : ℕ) (w : AWorld) :
    ((∀ x y, x < W → y < H → (w self).oldDensity x y ≤ 1) →
      ∀ x y, (advect W H dt res vel pos self w self).density x y = 0) ∧
    (∀ c : ℕ × ℕ, (w self).oldDensity c.1 c.2 ≤ 1 →
      ∀ t x y,
        (advect W H dt res vel pos self (updOldCell w self c 0) t).density x y
          = (advect W H dt res vel pos self w t).density x y) := by
  constructor
  · intro hall x y
    unfold advect
    rw [advect_fold_skip W H dt res vel pos self (cellsRM W H) (zeroTileDensity w self)
      (by
        intro d hd
        rw [zeroTileDensity_old]
        obtain ⟨h1, h2⟩ := mem_cellsRM W H d hd
        exact not_lt.mpr (hall d.1 d.2 h1 h2))]
    unfold zeroTileDensity
    rw [if_pos rfl]
    rfl
  · intro c hle t x y
    unfold advect
    have hcong := advect_foldl_congr W H dt res vel pos self c (cellsRM W H)
      (zeroTileDensity (updOldCell w self c 0) self) (zeroTileDensity w self)
      (by
        intro t'
        refine ⟨?_, ?_, ?_, ?_, ?_, ?_⟩
        · unfold zeroTileDensity
          by_cases h : t' = self
          · rw [if_pos h, if_pos h]
          · rw [if_neg h, if_neg h]
            exact updOldCell_density w self c 0 t'
        · rw [zeroTileDensity_viscosity, zeroTileDensity_viscosity]
          exact updOldCell_viscosity w self c 0 t'
        · rw [zeroTileDensity_upper, zeroTileDensity_upper]
          exact updOldCell_upper w self c 0 t'
        · rw [zeroTileDensity_lower, zeroTileDensity_lower]
          exact updOldCell_lower w self c 0 t'
        · rw [zeroTileDensity_left, zeroTileDensity_left]
          exact updOldCell_left w self c 0 t'
        · rw [zeroTileDensity_right, zeroTileDensity_right]
          exact updOldCell_right w self c 0 t')
      (by
        intro t' x' y' hne
        rw [zeroTileDensity_old, zeroTileDensity_old]
        exact updOldCell_old_ne w self c 0 t' x' y' hne)
      (by
        rw [zeroTileDensity_old]
        rw [updOldCell_old_self w self c 0]
        norm_num)
      (by
        rw [zeroTileDensity_old]
        exact hle)
    exact congrFun (congrFun (hcong t).1 x) y

/-- Concrete instance of
`advect_zeroes_then_splats_only_above_threshold`: zeroing the empty
history cell `(0, 1)` of the demo tile changes nothing. -/
theorem advect_zeroes_then_splats_witness :
    (advect 2 2 1 1 demoVel (0, 0) 0 (updOldCell demoAWorld 0 (0, 1) 0) 5).density 1 1
      = (advect 2 2 1 1 demoVel (0, 0) 0 demoAWorld 5).density 1 1 :=
  (advect_zeroes_then_splats_only_above_threshold 2 2 1 1 demoVel (0, 0) 0 demoAWorld).2
    (0, 1) (by norm_num [demoAWorld, demoATile]) 5 1 1

section RoutingLemmas

/-- In-range deposits go to the tile itself. -/
lemma addCloudDensity_inrange (W H : ℕ) (w : AWorld) (self : ℕ) (x y : ℤ) (v : ℚ)
    (hx0 : 0 ≤ x) (hxW : x < (W : ℤ)) (hy0 : 0 ≤ y) (hyH : y < (H : ℤ)) :
    addCloudDensity W H w self x y v = addTileDensity w self x.toNat y.toNat v := by
  have h1 : ¬ x < 0 := by omega
  have h2 : ¬ (W : ℤ) ≤ x := by omega
  have h3 : ¬ y < 0 := by omega
  have h4 : ¬ (H : ℤ) ≤ y := by omega
  unfold addCloudDensity
  simp only [if_neg h1, if_neg h2, if_neg h3, if_neg h4]

/-- An x-underflow deposit with no left neighbor is dropped. -/
lemma addCloudDensity_left_none (W H : ℕ) (w : AWorld) (self : ℕ) (x y : ℤ) (v : ℚ)
    (hx : x < 0) (hl : (w self).left = none) :
    addCloudDensity W H w self x y v = w := by
  unfold addCloudDensity
  simp only [if_pos hx, hl]

/-- An x-underflow deposit goes to the left neighbor at column `W - 1`. -/
lemma addCloudDensity_left_some (W H : ℕ) (w : AWorld) (self : ℕ) (x y : ℤ) (v : ℚ)
    (l : ℕ) (hx : x < 0) (hy0 : 0 ≤ y) (hyH : y < (H : ℤ)) (hl : (w self).left = some l) :
    addCloudDensity W H w self x y v = addTileDensity w l ((W : ℤ) - 1).toNat y.toNat v := by
  have h3 : ¬ y < 0 := by omega
  have h4 : ¬ (H : ℤ) ≤ y := by omega
  unfold addCloudDensity
  simp only [if_pos hx, hl, if_neg h3, if_neg h4]

/-- An x-overflow deposit goes to the right neighbor at column `0`. -/
lemma addCloudDensity_right_some (W H : ℕ) (w : AWorld) (self : ℕ) (x y : ℤ) (v : ℚ)
    (r : ℕ) (hx : (W : ℤ) ≤ x) (hy0 : 0 ≤ y) (hyH : y < (H : ℤ))
    (hr : (w self).right = some r) :
    addCloudDensity W H w self x y v = addTileDensity w r 0 y.toNat v := by
  have h1 : ¬ x < 0 := by omega
  have h3 : ¬ y < 0 := by omega
  have h4 : ¬ (H : ℤ) ≤ y := by omega
  unfold addCloudDensity
  simp only [if_neg h1, if_pos hx, hr, if_neg h3, if_neg h4, Int.toNat_zero]

/-- A y-underflow deposit goes to the upper neighbor at row `H - 1`. -/
lemma addCloudDensity_upper_some (W H : ℕ) (w : AWorld) (self : ℕ) (x y : ℤ) (v : ℚ)
    (u : ℕ) (hx0 : 0 ≤ x) (hxW : x < (W : ℤ)) (hy : y < 0) (hu : (w self).upper = some u) :
    addCloudDensity W H w self x y v = addTileDensity w u x.toNat ((H : ℤ) - 1).toNat v := by
  have h1 : ¬ x < 0 := by omega
  have h2 : ¬ (W : ℤ) ≤ x := by omega
  unfold addCloudDensity
  simp only [if_neg h1, if_neg h2, if_pos hy, hu]

/-- A y-overflow deposit goes to the lower neighbor at row `0`. -/
lemma addCloudDensity_lower_some (W H : ℕ) (w : AWorld) (self : ℕ) (x y : ℤ) (v : ℚ)
    (d : ℕ) (hx0 : 0 ≤ x) (hxW : x < (W : ℤ)) (hy : (H : ℤ) ≤ y)
    (hd : (w self).lower = some d) :
    addCloudDensity W H w self x y v = addTileDensity w d x.toNat 0 v := by
  have h1 : ¬ x < 0 := by omega
  have h2 : ¬ (W : ℤ) ≤ x := by omega
  have h3 : ¬ y < 0 := by omega
  unfold addCloudDensity
  simp only [if_neg h1, if_neg h2, if_neg h3, if_pos hy, hd, Int.toNat_zero]

/-- A diagonal underflow resolves through two hops: the left neighbor,
then that neighbor's upper neighbor. -/
lemma addCloudDensity_diag_some (W H : ℕ) (w : AWorld) (self : ℕ) (x y : ℤ) (v : ℚ)
    (l lu : ℕ) (hx : x < 0) (hy : y < 0) (hl : (w self).left = some l)
    (hlu : (w l).upper = some lu) :
    addCloudDensity W H w self x y v
      = addTileDensity w lu ((W : ℤ) - 1).toNat ((H : ℤ) - 1).toNat v := by
  unfold addCloudDensity
  simp only [if_pos hx, hl, if_pos hy, hlu]

/-- A diagonal underflow is dropped when the intermediate left neighbor
exists but its upper neighbor does not. -/
lemma addCloudDensity_diag_none (W H : ℕ) (w : AWorld) (self : ℕ) (x y : ℤ) (v : ℚ)
    (l : ℕ) (hx : x < 0) (hy : y < 0) (hl : (w self).left = some l)
    (hlu : (w l).upper = none) :
    addCloudDensity W H w self x y v = w := by
  unfold addCloudDensity
  simp only [if_pos hx, hl, if_pos hy, hlu]

/-- `std::clamp` keeps its argument between its (ordered) bounds. -/
lemma qClamp_bounds (v lo hi : ℚ) (h : lo ≤ hi) : lo ≤ qClamp v lo hi ∧ qClamp v lo hi ≤ hi := by
  unfold qClamp
  by_cases h1 : v < lo
  · rw [if_pos h1]
    exact ⟨le_refl lo, h⟩
  · rw [if_neg h1]
    by_cases h2 : hi < v
    · rw [if_pos h2]
      exact ⟨h, le_refl hi⟩
    · rw [if_neg h2]
      exact ⟨le_of_not_lt h1, le_of_not_lt h2⟩

/-- The truncated clamped destination coordinate used by `advect` always
lies in `[0, n - 2]`, so both splat cells `x0` and `x1 = x0 + 1` lie
inside `[0, n)`. -/
lemma clamp_trunc_in_range (n : ℕ) (q : ℚ) (h2 : 2 ≤ n) :
    0 ≤ cppTruncQ (qClamp q (1/2) ((n : ℚ) - 3/2)) ∧
    cppTruncQ (qClamp q (1/2) ((n : ℚ) - 3/2)) + 1 ≤ (n : ℤ) - 1 := by
  have hn : (2 : ℚ) ≤ (n : ℚ) := by exact_mod_cast h2
  obtain ⟨hlo, hhi⟩ := qClamp_bounds q (1/2) ((n : ℚ) - 3/2) (by linarith)
  have h0 : (0 : ℚ) ≤ qClamp q (1/2) ((n : ℚ) - 3/2) := by linarith
  unfold cppTruncQ
  rw [if_pos h0]
  constructor
  · exact Int.floor_nonneg.mpr h0
  · have hmono : ⌊qClamp q (1/2) ((n : ℚ) - 3/2)⌋ ≤ ⌊(n : ℚ) - 3/2⌋ := Int.floor_le_floor hhi
    have heq : ⌊(n : ℚ) - 3/2⌋ = (n : ℤ) - 2 := by
      rw [Int.floor_eq_iff]
      constructor
      · push_cast
        linarith
      · push_cast
        linarith
    omega

end RoutingLemmas

/-- C6 (amended): `addCloudDensity` does implement the claimed routing —
a deposit with `x < 0` goes to the left neighbor at column `dim - 1`, one
with `x >= dim` to the right neighbor at column `0`, the same pattern on
the y axis through the upper/lower neighbor, each axis resolved
independently so a diagonal overflow passes through two neighbor hops,
and the deposit is silently dropped when a required neighbor reference is
null — but `advect` clamps every destination coordinate to
`[0.5, dim - 1.5]` before splitting it, so both splat cells on each axis
always lie inside `[0, dim)` and advection itself never produces an
out-of-tile deposit. -/
theorem addCloudDensity_routes_and_advect_clamps (W H : ℕ) (w : AWorld) (self : ℕ) (v : ℚ) :
    (∀ x y : ℤ, 0 ≤ x → x < (W : ℤ) → 0 ≤ y → y < (H : ℤ) →
      addCloudDensity W H w self x y v = addTileDensity w self x.toNat y.toNat v) ∧
    (∀ x y : ℤ, x < 0 → (w self).left = none →
      addCloudDensity W H w self x y v = w) ∧
    (∀ x y : ℤ, ∀ l, x < 0 → 0 ≤ y → y < (H : ℤ) → (w self).left = some l →
      addCloudDensity W H w self x y v = addTileDensity w l (W - 1) y.toNat v) ∧
    (∀ x y : ℤ, ∀ r, (W : ℤ) ≤ x → 0 ≤ y → y < (H : ℤ) → (w self).right = some r →
      addCloudDensity W H w self x y v = addTileDensity w r 0 y.toNat v) ∧
    (∀ x y : ℤ, ∀ u, 0 ≤ x → x < (W : ℤ) → y < 0 → (w self).upper = some u →
      addCloudDensity W H w self x y v = addTileDensity w u x.toNat (H - 1) v) ∧
    (∀ x y : ℤ, ∀ d, 0 ≤ x → x < (W : ℤ) → (H : ℤ) ≤ y → (w self).lower = some d →
      addCloudDensity W H w self x y v = addTileDensity w d x.toNat 0 v) ∧
    (∀ x y : ℤ, ∀ l lu, x < 0 → y < 0 → (w self).left = some l → (w l).upper = some lu →
      addCloudDensity W H w self x y v = addTileDensity w lu (W - 1) (H - 1) v) ∧
    (∀ x y : ℤ, ∀ l, x < 0 → y < 0 → (w self).left = some l → (w l).upper = none →
      addCloudDensity W H w self x y v = w) ∧
    (∀ q : ℚ, 2 ≤ W →
      0 ≤ cppTruncQ (qClamp q (1/2) ((W : ℚ) - 3/2)) ∧
      cppTruncQ (qClamp q (1/2) ((W : ℚ) - 3/2)) + 1 ≤ (W : ℤ) - 1) := by
  have hW1 : ((W : ℤ) - 1).toNat = W - 1 := by omega
  have hH1 : ((H : ℤ) - 1).toNat = H - 1 := by omega
  refine ⟨?_, ?_, ?_, ?_, ?_, ?_, ?_, ?_, ?_⟩
  · intro x y hx0 hxW hy0 hyH
    exact addCloudDensity_inrange W H w self x y v hx0 hxW hy0 hyH
  · intro x y hx hl
    exact addCloudDensity_left_none W H w self x y v hx hl
  · intro x y l hx hy0 hyH hl
    rw [addCloudDensity_left_some W H w self x y v l hx hy0 hyH hl, hW1]
  · intro x y r hx hy0 hyH hr
    exact addCloudDensity_right_some W H w self x y v r hx hy0 hyH hr
  · intro x y u hx0 hxW hy hu
    rw [addCloudDensity_upper_some W H w self x y v u hx0 hxW hy hu, hH1]
  · intro x y d hx0 hxW hy hd
    exact addCloudDensity_lower_some W H w self x y v d hx0 hxW hy hd
  · intro x y l lu hx hy hl hlu
    rw [addCloudDensity_diag_some W H w self x y v l lu hx hy hl hlu, hW1, hH1]
  · intro x y l hx hy hl hlu
    exact addCloudDensity_diag_none W H w self x y v l hx hy hl hlu
  · intro q h2
    exact clamp_trunc_in_range W q h2

/-- Concrete instance of `addCloudDensity_routes_and_advect_clamps`: on
the lone demo tile, an `x = -1` deposit is dropped because the left
neighbor is null. -/
theorem addCloudDensity_routes_witness :
    addCloudDensity 2 2 demoAWorld 0 (-1) 0 (25 : ℚ) = demoAWorld :=
  (addCloudDensity_routes_and_advect_clamps 2 2 demoAWorld 0 25).2.1 (-1) 0
    (by norm_num) rfl

/-- C6 counterexample: on a `2 x 2` lone tile (left neighbor null) with
`100` units of history density at cell `(0, 0)` and a velocity field
carrying the mass far to the left (`dt * vx = -1000`, so the unclamped
destination `x + dt*vx` lies left of the tile), the claim predicts the
deposit is routed to the missing left neighbor and silently discarded;
instead the clamp pulls the destination back to `0.5` and all `100`
units stay inside the tile, `25` in each of the four cells. -/
theorem advect_at_edge_keeps_mass :
    (demoAWorld 0).left = none ∧
    (0 : ℚ) + 1 * ((demoVel (0 + 0 * 1, 0 + 0 * 1)).1 / (demoAWorld 0).viscosity) < 0 ∧
    (advect 2 2 1 1 demoVel (0, 0) 0 demoAWorld 0).density 0 0 = 25 ∧
    (advect 2 2 1 1 demoVel (0, 0) 0 demoAWorld 0).density 0 1 = 25 ∧
    (advect 2 2 1 1 demoVel (0, 0) 0 demoAWorld 0).density 1 0 = 25 ∧
    (advect 2 2 1 1 demoVel (0, 0) 0 demoAWorld 0).density 1 1 = 25 := by
  refine ⟨rfl, by norm_num [demoVel, demoAWorld, demoATile], ?_, ?_, ?_, ?_⟩ <;>
    norm_num [advect, cellsRM, rowsFrom, colCellsFrom, advectCell, addCloudDensity,
      addTileDensity, qClamp, cppTruncQ, zeroTileDensity, demoAWorld, demoATile,
      demoVel, zeroField, updF]

section TakeLemmas

/-- When no tile both contains the position and handles the compound, the
scan returns `0` and leaves every tile unchanged. -/
lemma sysTakeCompound_not_found (halfW halfH res : ℚ) (W H : ℕ)
    (tiles : List CloudComp) (c : ℕ) (wp : ℚ × ℚ) (rate : ℚ)
    (h : ∀ t ∈ tiles,
      ¬(cloudContainsPosition halfW halfH t.position wp = true ∧ handlesCompound t c = true)) :
    sysTakeCompound halfW halfH res W H tiles c wp rate = (0, tiles) := by
  induction tiles with
  | nil => rfl
  | cons t rest ih =>
    rw [sysTakeCompound, if_neg (h t (List.mem_cons_self t rest))]
    have hrest := ih (fun t' ht' => h t' (List.mem_cons_of_mem t ht'))
    rw [hrest]

end TakeLemmas

/-- C4: taking a compound at a world position handled by the tile `t`
(after a prefix of tiles that do not contain the position or do not
handle the compound) returns exactly `⌊density * rate⌋`, replaces the
cell's density by `density - ⌊density * rate⌋` snapped to `0` when the
residual is below `1` — so the resulting cell density is either `0` or at
least `1` — and returns `0` with no mutation when no tile contains the
position and handles the compound. -/
theorem takeAmount_floor_and_snap (halfW halfH res : ℚ) (W H : ℕ)
    (pre post : List CloudComp) (t : CloudComp) (c : ℕ) (wp : ℚ × ℚ) (rate : ℚ)
    (x y : ℕ) (i : Fin 4) (amt : ℤ) (d2 : ℚ)
    (hpre : ∀ t' ∈ pre,
      ¬(cloudContainsPosition halfW halfH t'.position wp = true ∧ handlesCompound t' c = true))
    (hcont : cloudContainsPosition halfW halfH t.position wp = true)
    (hconv : convertWorldToCloudLocal halfW halfH res W H t.position wp = some (x, y))
    (hslot : getSlotForCompound t c = some i)
    (hrate : 0 ≤ rate) (hdnn : 0 ≤ (t.clouds i).density x y)
    (hamt : amt = ⌊(t.clouds i).density x y * rate⌋)
    (hd2 : d2 = if (t.clouds i).density x y - (amt : ℚ) < 1 then 0
                else (t.clouds i).density x y - (amt : ℚ)) :
    sysTakeCompound halfW halfH res W H (pre ++ t :: post) c wp rate =
      ((amt : ℚ), pre ++ setSlotDensity t i x y d2 :: post) ∧
    (d2 = 0 ∨ 1 ≤ d2) ∧
    (∀ tiles : List CloudComp,
      (∀ t' ∈ tiles,
        ¬(cloudContainsPosition halfW halfH t'.position wp = true ∧
          handlesCompound t' c = true)) →
      sysTakeCompound halfW halfH res W H tiles c wp rate = (0, tiles)) := by
  have hhand : handlesCompound t c = true := by
    unfold handlesCompound
    rw [hslot]
    rfl
  have htrunc : cppTruncQ ((t.clouds i).density x y * rate) = amt := by
    rw [hamt]
    unfold cppTruncQ
    rw [if_pos (mul_nonneg hdnn hrate)]
  have htake : takeCompound t c x y rate = some (amt, setSlotDensity t i x y d2) := by
    unfold takeCompound
    rw [hslot]
    simp only [htrunc, hd2]
  refine ⟨?_, ?_, ?_⟩
  · induction pre with
    | nil =>
      simp only [List.nil_append]
      rw [sysTakeCompound, if_pos ⟨hcont, hhand⟩, hconv]
      simp only [htake]
    | cons p ps ih =>
      have h1 := hpre p (List.mem_cons_self p ps)
      have h2 : ∀ t' ∈ ps,
          ¬(cloudContainsPosition halfW halfH t'.position wp = true ∧
            handlesCompound t' c = true) :=
        fun t' ht' => hpre t' (List.mem_cons_of_mem p ht')
      simp only [List.cons_append]
      rw [sysTakeCompound, if_neg h1, ih h2]
  · rw [hd2]
    split
    · exact Or.inl rfl
    · rename_i hge
      exact Or.inr (le_of_not_lt hge)
  · intro tiles htiles
    exact sysTakeCompound_not_found halfW halfH res W H tiles c wp rate htiles

/-- Concrete instance of `takeAmount_floor_and_snap`: a single tile at the
origin handling compound `3` with density `10` at cell `(25, 25)`, taken
at rate `1/4`: the call returns `2` and leaves `8` in the cell. -/
theorem takeAmount_floor_and_snap_witness :
    sysTakeCompound 100 100 4 50 50 ([] ++ takeDemoComp :: []) 3 (0, 0) (1/4) =
      (((2 : ℤ) : ℚ), [] ++ setSlotDensity takeDemoComp 0 25 25 8 :: []) ∧
    ((8 : ℚ) = 0 ∨ 1 ≤ (8 : ℚ)) ∧
    (∀ tiles : List CloudComp,
      (∀ t' ∈ tiles,
        ¬(cloudContainsPosition 100 100 t'.position (0, 0) = true ∧
          handlesCompound t' 3 = true)) →
      sysTakeCompound 100 100 4 50 50 tiles 3 (0, 0) (1/4) = (0, tiles)) :=
  takeAmount_floor_and_snap 100 100 4 50 50 [] [] takeDemoComp 3 (0, 0) (1/4)
    25 25 0 2 8
    (by intro t' ht'; cases ht')
    (by norm_num [cloudContainsPosition, takeDemoComp])
    (by norm_num [convertWorldToCloudLocal, takeDemoComp]; rfl)
    (by simp [getSlotForCompound, takeDemoComp, List.finRange, List.find?])
    (by norm_num)
    (by norm_num [takeDemoComp])
    (by norm_num [takeDemoComp])
    (by norm_num [takeDemoComp])

section EmptySlotLemmas

/-- A found slot's id equals the requested compound id. -/
lemma getSlotForCompound_id (comp : CloudComp) (c : ℕ) (i : Fin 4)
    (h : getSlotForCompound comp c = some i) : (comp.clouds i).id = c := by
  have := List.find?_some h
  simpa using this

/-- Slots of a `setSlotDensity` result keep their ids, and slots other
than the written one keep their densities. -/
lemma setSlotDensity_id (comp : CloudComp) (i : Fin 4) (x y : ℕ) (v : ℚ) (j : Fin 4) :
    ((setSlotDensity comp i x y v).clouds j).id = (comp.clouds j).id := by
  unfold setSlotDensity
  dsimp only
  split <;> rfl

lemma setSlotDensity_other (comp : CloudComp) (i : Fin 4) (x y : ℕ) (v : ℚ) (j : Fin 4)
    (hji : j ≠ i) : (setSlotDensity comp i x y v).clouds j = comp.clouds j := by
  unfold setSlotDensity
  dsimp only
  rw [if_neg hji]

/-- Fold step of `getCompoundsAt` only ever appends non-sentinel ids. -/
lemma getCompoundsAt_aux (comp : CloudComp) (x y : ℕ) (l : List (Fin 4))
    (acc : List (ℕ × ℚ)) (hacc : ∀ p ∈ acc, p.1 ≠ NULL_COMPOUND) :
    ∀ p ∈ l.foldl
      (fun acc i =>
        if (comp.clouds i).id ≠ NULL_COMPOUND ∧ (comp.clouds i).density x y > 0 then
          acc ++ [((comp.clouds i).id, (comp.clouds i).density x y)]
        else acc)
      acc, p.1 ≠ NULL_COMPOUND := by
  induction l generalizing acc with
  | nil => exact hacc
  | cons hd tl ih =>
    simp only [List.foldl_cons]
    apply ih
    intro p hp
    by_cases hc : (comp.clouds hd).id ≠ NULL_COMPOUND ∧ (comp.clouds hd).density x y > 0
    · rw [if_pos hc] at hp
      rcases List.mem_append.mp hp with h | h
      · exact hacc p h
      · rcases List.mem_singleton.mp h with rfl
        exact hc.1
    · rw [if_neg hc] at hp
      exact hacc p hp

/-- When the per-slot update keeps ids stable, the guarded solver loop
of `processCloud` runs exactly on the slots populated at entry. -/
lemma processCloudSlots_filter_aux (step : Fin 4 → CloudComp → CloudComp)
    (hids : ∀ (j : Fin 4) (c : CloudComp) (k : Fin 4),
      ((step j c).clouds k).id = (c.clouds k).id) :
    ∀ (l : List (Fin 4)) (comp c : CloudComp),
      (∀ k, (c.clouds k).id = (comp.clouds k).id) →
      l.foldl (fun c i => if (c.clouds i).id ≠ NULL_COMPOUND then step i c else c) c
        = (l.filter (fun i => (comp.clouds i).id ≠ NULL_COMPOUND)).foldl
            (fun c i => step i c) c := by
  intro l
  induction l with
  | nil =>
    intro comp c _
    rfl
  | cons i is ih =>
    intro comp c h
    rw [List.foldl_cons, List.filter_cons]
    by_cases hid : (comp.clouds i).id ≠ NULL_COMPOUND
    · rw [if_pos (by rw [h i]; exact hid), if_pos (by simpa using hid), List.foldl_cons]
      exact ih comp (step i c) (fun k => by rw [hids i c k, h k])
    · rw [if_neg (by rw [h i]; exact hid), if_neg (by simpa using hid)]
      exact ih comp c h

/-- The guarded solver loop keeps every slot id unchanged when the
per-slot update does. -/
lemma processCloudSlots_ids_aux (step : Fin 4 → CloudComp → CloudComp)
    (hids : ∀ (j : Fin 4) (c : CloudComp) (k : Fin 4),
      ((step j c).clouds k).id = (c.clouds k).id) :
    ∀ (l : List (Fin 4)) (c : CloudComp) (k : Fin 4),
      ((l.foldl (fun c i => if (c.clouds i).id ≠ NULL_COMPOUND then step i c else c)
        c).clouds k).id = (c.clouds k).id := by
  intro l
  induction l with
  | nil =>
    intro c k
    rfl
  | cons i is ih =>
    intro c k
    rw [List.foldl_cons]
    by_cases hid : (c.clouds i).id ≠ NULL_COMPOUND
    · rw [if_pos hid, ih (step i c) k, hids i c k]
    · rw [if_neg hid, ih c k]

/-- A per-slot update that touches only its own slot leaves every
sentinel slot of the guarded solver loop completely untouched. -/
lemma processCloudSlots_sentinel_aux (step : Fin 4 → CloudComp → CloudComp)
    (hstep : ∀ (j : Fin 4) (c : CloudComp) (k : Fin 4), k ≠ j →
      (step j c).clouds k = c.clouds k) :
    ∀ (l : List (Fin 4)) (c : CloudComp) (i : Fin 4),
      (c.clouds i).id = NULL_COMPOUND →
      ((l.foldl (fun c j => if (c.clouds j).id ≠ NULL_COMPOUND then step j c else c)
        c).clouds i) = c.clouds i := by
  intro l
  induction l with
  | nil =>
    intro c i _
    rfl
  | cons j js ih =>
    intro c i h
    rw [List.foldl_cons]
    by_cases hij : i = j
    · subst hij
      rw [if_neg (by simp [h, NULL_COMPOUND])]
      exact ih c i h
    · by_cases hg : (c.clouds j).id ≠ NULL_COMPOUND
      · rw [if_pos hg, ih (step j c) i (by rw [hstep j c i hij]; exact h),
          hstep j c i hij]
      · rw [if_neg hg]
        exact ih c i h

end EmptySlotLemmas

/-- C9 (amended): operations invoked with a compound id other than the
empty sentinel never touch an empty slot: a successful slot lookup
returns a slot carrying exactly the requested id, `addCloud` and
`takeCompound` with a non-sentinel id preserve the all-zeroes invariant
on sentinel slots, `getCompoundsAt` never reports a sentinel slot, and
recycling preserves the invariant; and the per-tick solver dispatch of
`processCloud` skips empty-sentinel slots: for any per-slot solver
update that keeps slot ids stable and touches only its own slot, the
guarded loop runs exactly on the populated slots, leaves every sentinel
slot completely untouched, and preserves the all-zeroes invariant. -/
theorem empty_slots_skipped_for_real_ids :
    (∀ (comp : CloudComp) (c : ℕ) (i : Fin 4),
      getSlotForCompound comp c = some i → (comp.clouds i).id = c) ∧
    (∀ (comp : CloudComp) (c : ℕ) (dens : ℚ) (x y : ℕ) (comp' : CloudComp),
      c ≠ NULL_COMPOUND → emptySlotsZero comp →
      addCloud comp c dens x y = some comp' → emptySlotsZero comp') ∧
    (∀ (comp : CloudComp) (c : ℕ) (x y : ℕ) (rate : ℚ) (amt : ℤ) (comp' : CloudComp),
      c ≠ NULL_COMPOUND → emptySlotsZero comp →
      takeCompound comp c x y rate = some (amt, comp') → emptySlotsZero comp') ∧
    (∀ (comp : CloudComp) (x y : ℕ) (p : ℕ × ℚ),
      p ∈ getCompoundsAt comp x y → p.1 ≠ NULL_COMPOUND) ∧
    (∀ (comp : CloudComp) (newPos : ℚ × ℚ),
      emptySlotsZero comp → emptySlotsZero (recycleToPosition comp newPos)) ∧
    (∀ step : Fin 4 → CloudComp → CloudComp,
      (∀ (j : Fin 4) (c : CloudComp) (k : Fin 4),
        ((step j c).clouds k).id = (c.clouds k).id) →
      ∀ comp : CloudComp,
        processCloudSlots step comp
          = ((List.finRange 4).filter
              (fun i => (comp.clouds i).id ≠ NULL_COMPOUND)).foldl
              (fun c i => step i c) comp) ∧
    (∀ step : Fin 4 → CloudComp → CloudComp,
      (∀ (j : Fin 4) (c : CloudComp) (k : Fin 4), k ≠ j →
        (step j c).clouds k = c.clouds k) →
      ∀ (comp : CloudComp) (i : Fin 4), (comp.clouds i).id = NULL_COMPOUND →
        (processCloudSlots step comp).clouds i = comp.clouds i) ∧
    (∀ step : Fin 4 → CloudComp → CloudComp,
      (∀ (j : Fin 4) (c : CloudComp) (k : Fin 4),
        ((step j c).clouds k).id = (c.clouds k).id) →
      (∀ (j : Fin 4) (c : CloudComp) (k : Fin 4), k ≠ j →
        (step j c).clouds k = c.clouds k) →
      ∀ comp : CloudComp, emptySlotsZero comp →
        emptySlotsZero (processCloudSlots step comp)) := by
  refine ⟨getSlotForCompound_id, ?_, ?_, ?_, ?_, ?_, ?_, ?_⟩
  · intro comp c dens x y comp' hc hinv hadd
    unfold addCloud at hadd
    rcases hs : getSlotForCompound comp c with _ | i
    · rw [hs] at hadd
      cases hadd
    · rw [hs] at hadd
      have hid := getSlotForCompound_id comp c i hs
      cases hadd
      intro j hj x' y'
      have hji : j ≠ i := by
        intro h
        apply hc
        rw [← hj, setSlotDensity_id, ← hid, h]
      rw [setSlotDensity_other comp i x y _ j hji] at hj ⊢
      exact hinv j hj x' y'
  · intro comp c x y rate amt comp' hc hinv htake
    unfold takeCompound at htake
    rcases hs : getSlotForCompound comp c with _ | i
    · rw [hs] at htake
      cases htake
    · rw [hs] at htake
      have hid := getSlotForCompound_id comp c i hs
      cases htake
      intro j hj x' y'
      have hji : j ≠ i := by
        intro h
        apply hc
        rw [← hj, setSlotDensity_id, ← hid, h]
      rw [setSlotDensity_other comp i x y _ j hji] at hj ⊢
      exact hinv j hj x' y'
  · intro comp x y p hp
    exact getCompoundsAt_aux comp x y (List.finRange 4) [] (by intro q hq; cases hq) p hp
  · intro comp newPos hinv j hj x' y'
    unfold recycleToPosition at hj ⊢
    dsimp only at hj ⊢
    by_cases hid : (comp.clouds j).id ≠ NULL_COMPOUND
    · rw [if_pos hid] at hj
      exact absurd hj hid
    · rw [if_neg hid] at hj ⊢
      exact hinv j hj x' y'
  · intro step hids comp
    exact processCloudSlots_filter_aux step hids (List.finRange 4) comp comp (fun k => rfl)
  · intro step hstep comp i h
    exact processCloudSlots_sentinel_aux step hstep (List.finRange 4) comp i h
  · intro step hids hstep comp hinv i hid x y
    unfold processCloudSlots at hid ⊢
    by_cases horig : (comp.clouds i).id = NULL_COMPOUND
    · rw [processCloudSlots_sentinel_aux step hstep (List.finRange 4) comp i horig]
      exact hinv i horig x y
    · exact absurd (by
        rw [← processCloudSlots_ids_aux step hids (List.finRange 4) comp i]
        exact hid) horig

/-- Concrete instance of `empty_slots_skipped_for_real_ids`: the lookup
of compound `1` on the demo tile lands on slot `0`, which indeed carries
id `1`. -/
theorem empty_slots_skipped_witness : (emptyDemoComp.clouds 0).id = 1 :=
  empty_slots_skipped_for_real_ids.1 emptyDemoComp 1 0
    (by simp [getSlotForCompound, emptyDemoComp, List.finRange, List.find?])

/-- C9 counterexample: `addCloud` invoked with the empty sentinel id
itself matches the first empty slot and deposits a nonzero density into
it: on a tile whose slot `1` is empty with zero density, the call puts
`5` units into that empty slot. -/
theorem addCloud_sentinel_fills_empty_slot :
    (emptyDemoComp.clouds 1).id = NULL_COMPOUND ∧
    (emptyDemoComp.clouds 1).density 0 0 = 0 ∧
    (addCloud emptyDemoComp NULL_COMPOUND 5 0 0).map
      (fun comp => (comp.clouds 1).density 0 0) = some 5 := by
  refine ⟨by simp [emptyDemoComp, NULL_COMPOUND], by simp [emptyDemoComp, zeroField], ?_⟩
  have hslot : getSlotForCompound emptyDemoComp NULL_COMPOUND = some 1 := by
    simp [getSlotForCompound, emptyDemoComp, List.finRange, List.find?, NULL_COMPOUND]
  simp only [addCloud, hslot]
  simp [setSlotDensity, updF, emptyDemoComp, zeroField]

section PositioningLemmas

/-- A single fill step never changes the number of managed tiles. -/
lemma fillOne_length (eps : ℚ) (g : ℕ) (p : ℚ × ℚ) (st st2 : List PTile × List ℕ)
    (h : fillOne eps g p st = .ok st2) : st2.1.length = st.1.length := by
  unfold fillOne at h
  split at h
  · cases h
    rfl
  · rcases hfs : findStray st.1 st.2 g with _ | n
    · rw [hfs] at h
      cases h
    · rw [hfs] at h
      cases h
      simp

/-- Filling the positions of one group never changes the tile count. -/
lemma fillPositions_length (eps : ℚ) (g : ℕ) :
    ∀ (rs : List ((ℤ × ℤ) × (ℚ × ℚ))) (st st2 : List PTile × List ℕ),
    fillPositions eps g rs st = .ok st2 → st2.1.length = st.1.length := by
  intro rs
  induction rs with
  | nil =>
    intro st st2 h
    cases h
    rfl
  | cons r rs ih =>
    intro st st2 h
    rw [fillPositions] at h
    rcases hf : fillOne eps g r.2 st with e | st1
    · rw [hf] at h
      cases h
    · rw [hf] at h
      rw [ih st1 st2 h, fillOne_length eps g r.2 st st1 hf]

/-- Filling all groups never changes the tile count. -/
lemma fillGroups_length (eps : ℚ) (req : List ((ℤ × ℤ) × (ℚ × ℚ))) :
    ∀ (gs : List ℕ) (st st2 : List PTile × List ℕ),
    fillGroups eps req gs st = .ok st2 → st2.1.length = st.1.length := by
  intro gs
  induction gs with
  | nil =>
    intro st st2 h
    cases h
    rfl
  | cons g gs ih =>
    intro st st2 h
    rw [fillGroups] at h
    rcases hf : fillPositions eps g req st with e | st1
    · rw [hf] at h
      cases h
    · rw [hf] at h
      rw [ih st1 st2 h, fillPositions_length eps g req st st1 hf]

/-- A successful repositioning pass never changes the tile count. -/
lemma applyNewCloudPositioning_length (eps extX extZ : ℚ) (cloudTypes : List ℕ)
    (center : ℚ × ℚ) (tiles tiles2 : List PTile)
    (h : applyNewCloudPositioning eps extX extZ cloudTypes center tiles = .ok tiles2) :
    tiles2.length = tiles.length := by
  unfold applyNewCloudPositioning at h
  rcases hf : fillGroups eps (calculateGridPositions extX extZ center) (groupIds cloudTypes)
      (tiles, straysOf eps (calculateGridPositions extX extZ center) tiles) with e | st
  · rw [hf] at h
    cases h
  · rw [hf] at h
    dsimp only at h
    by_cases hs2 : st.2 = []
    · rw [if_pos hs2] at h
      cases h
      exact fillGroups_length eps (calculateGridPositions extX extZ center)
        (groupIds cloudTypes) _ st hf
    · rw [if_neg hs2] at h
      cases h

/-- `doSpawnCycle` on a nonempty tile set: the initial-spawn branch is
skipped. -/
lemma doSpawnCycle_nonempty (eps extX extZ : ℚ) (cloudTypes : List ℕ) (s : SysState)
    (p : ℚ × ℚ) (hne : s.tiles ≠ []) :
    doSpawnCycle eps extX extZ cloudTypes s p =
      (if s.tiles.length = cloudCountFormula cloudTypes.length then
        (if s.gridCenter = calculateGridCenterForPlayerPos extX extZ p then
          .ok (s, false)
        else
          match applyNewCloudPositioning eps extX extZ cloudTypes
              (calculateGridCenterForPlayerPos extX extZ p) s.tiles with
          | .error e => .error e
          | .ok tiles2 =>
            .ok (SysState.mk (calculateGridCenterForPlayerPos extX extZ p) tiles2, true))
      else .error "A CompoundCloud entity has mysteriously been destroyed") := by
  have hemp : s.tiles.isEmpty = false := by
    cases hs : s.tiles
    · exact absurd hs hne
    · rfl
  unfold doSpawnCycle
  rw [hemp]
  rfl

/-- The initial spawn creates `starts.length * positions.length`
tiles. -/
lemma spawnForGroups_length (cloudTypes : List ℕ) (positions : List (ℚ × ℚ)) :
    ∀ starts : List ℕ,
      (spawnForGroups cloudTypes positions starts).length
        = starts.length * positions.length := by
  intro starts
  induction starts with
  | nil => simp [spawnForGroups]
  | cons i is ih =>
    rw [spawnForGroups, List.length_append, List.length_map, ih, List.length_cons]
    ring

lemma initialSpawn_length (cloudTypes : List ℕ) (positions : List (ℚ × ℚ)) :
    (initialSpawn cloudTypes positions).length
      = (cloudTypes.length + 3) / 4 * positions.length := by
  unfold initialSpawn
  rw [spawnForGroups_length]
  unfold groupStarts
  rw [List.length_map, List.length_range]

/-- The asserted count formula is `ceil(n / 4) * 9`. -/
lemma cloudCountFormula_eq (n : ℕ) : cloudCountFormula n = (n + 3) / 4 * 9 := by
  unfold cloudCountFormula
  omega

/-- A duplicate-free list filtered for one of its members has exactly one
hit. -/
lemma filter_decide_eq_one {α : Type} [DecidableEq α] :
    ∀ (l : List α) (a : α), l.Nodup → a ∈ l →
      (l.filter (fun b => decide (b = a))).length = 1 := by
  intro l
  induction l with
  | nil =>
    intro a _ ha
    cases ha
  | cons x xs ih =>
    intro a hnd ha
    rw [List.filter_cons]
    rcases List.mem_cons.mp ha with rfl | ha2
    · rw [if_pos (by simp)]
      have hx : xs.filter (fun b => decide (b = a)) = [] := by
        rw [List.filter_eq_nil]
        intro b hb
        simp only [decide_eq_true_eq]
        intro hba
        exact (List.nodup_cons.mp hnd).1 (hba ▸ hb)
      rw [hx]
      rfl
    · have hxa : (decide (x = a)) = false := by
        simp only [decide_eq_false_iff_not]
        intro h
        exact (List.nodup_cons.mp hnd).1 (h ▸ ha2)
      rw [hxa]
      simp only [Bool.false_eq_true, if_false]
      exact ih a (List.nodup_cons.mp hnd).2 ha2

/-- Every spawned tile carries the group id of one of the starts and one
of the required positions. -/
lemma mem_spawnForGroups (cloudTypes : List ℕ) (positions : List (ℚ × ℚ)) :
    ∀ (starts : List ℕ) (t : PTile), t ∈ spawnForGroups cloudTypes positions starts →
      (∃ i ∈ starts, t.groupId = cloudTypes.getD i 0) ∧ t.pos ∈ positions := by
  intro starts
  induction starts with
  | nil =>
    intro t ht
    cases ht
  | cons i is ih =>
    intro t ht
    rw [spawnForGroups] at ht
    rcases List.mem_append.mp ht with h | h
    · obtain ⟨p, hp, rfl⟩ := List.mem_map.mp h
      exact ⟨⟨i, List.mem_cons_self i is, rfl⟩, hp⟩
    · obtain ⟨⟨j, hj, hgid⟩, hpos⟩ := ih t h
      exact ⟨⟨j, List.mem_cons_of_mem i hj, hgid⟩, hpos⟩

/-- Conversely, every (start, required position) pair has its tile in the
spawn. -/
lemma spawn_mem_of (cloudTypes : List ℕ) (positions : List (ℚ × ℚ)) :
    ∀ (starts : List ℕ), ∀ i ∈ starts, ∀ p ∈ positions,
      PTile.mk p (cloudTypes.getD i 0) ∈ spawnForGroups cloudTypes positions starts := by
  intro starts
  induction starts with
  | nil =>
    intro i hi
    cases hi
  | cons j js ih =>
    intro i hi p hp
    rw [spawnForGroups]
    rcases List.mem_cons.mp hi with rfl | hi2
    · exact List.mem_append_left _ (List.mem_map_of_mem _ hp)
    · exact List.mem_append_right _ (ih i hi2 p hp)

/-- The initial spawn puts exactly one tile at each (group, required
position) pair, provided the group ids and the positions are
duplicate-free. -/
lemma spawnForGroups_count_one (cloudTypes : List ℕ) (positions : List (ℚ × ℚ))
    (hpos : positions.Nodup) :
    ∀ (starts : List ℕ),
      (starts.map (fun i => cloudTypes.getD i 0)).Nodup →
      ∀ i ∈ starts, ∀ p ∈ positions,
      ((spawnForGroups cloudTypes positions starts).filter
        (fun t => t.groupId == cloudTypes.getD i 0 && decide (t.pos = p))).length = 1 := by
  intro starts
  induction starts with
  | nil =>
    intro _ i hi
    cases hi
  | cons j js ih =>
    intro hnd i hi p hp
    have hnd2 : (cloudTypes.getD j 0 :: js.map (fun i' => cloudTypes.getD i' 0)).Nodup := by
      rwa [List.map_cons] at hnd
    rw [spawnForGroups, List.filter_append, List.length_append]
    rcases List.mem_cons.mp hi with rfl | hi2
    · have hhead : ((positions.map (fun q => PTile.mk q (cloudTypes.getD i 0))).filter
          (fun t => t.groupId == cloudTypes.getD i 0 && decide (t.pos = p))).length = 1 := by
        rw [List.filter_map]
        rw [List.length_map]
        have hcomp : ((fun t => t.groupId == cloudTypes.getD i 0 && decide (t.pos = p)) ∘
            (fun q => PTile.mk q (cloudTypes.getD i 0))) = (fun q => decide (q = p)) := by
          funext q
          simp [Function.comp]
        rw [hcomp]
        exact filter_decide_eq_one positions p hpos hp
      have htail : ((spawnForGroups cloudTypes positions js).filter
          (fun t => t.groupId == cloudTypes.getD i 0 && decide (t.pos = p))).length = 0 := by
        rw [List.length_eq_zero, List.filter_eq_nil]
        intro t ht
        obtain ⟨⟨k, hk, hgid⟩, -⟩ := mem_spawnForGroups cloudTypes positions js t ht
        simp only [Bool.and_eq_true, beq_iff_eq, decide_eq_true_eq, not_and]
        intro hgeq _
        apply (List.nodup_cons.mp hnd2).1
        rw [← hgeq, hgid]
        exact List.mem_map_of_mem _ hk
      rw [hhead, htail]
    · have hgne : cloudTypes.getD j 0 ≠ cloudTypes.getD i 0 := by
        intro he
        apply (List.nodup_cons.mp hnd2).1
        rw [he]
        exact List.mem_map_of_mem _ hi2
      have hhead : ((positions.map (fun q => PTile.mk q (cloudTypes.getD j 0))).filter
          (fun t => t.groupId == cloudTypes.getD i 0 && decide (t.pos = p))).length = 0 := by
        rw [List.length_eq_zero, List.filter_eq_nil]
        intro t ht
        obtain ⟨q, hq, rfl⟩ := List.mem_map.mp ht
        simp only [Bool.and_eq_true, beq_iff_eq, decide_eq_true_eq, not_and]
        intro hgeq
        exact absurd hgeq hgne
      rw [hhead, ih (List.nodup_cons.mp hnd2).2 i hi2 p hp]

/-- A tile is epsilon-near its own position. -/
lemma nearPos_self (eps : ℚ) (heps : 0 < eps) (p : ℚ × ℚ) : nearPos eps p p = true := by
  simp [nearPos, hAddAbs, heps]

/-- Freshly spawned tiles produce no strays: each sits exactly at a
required position. -/
lemma straysOf_spawn_empty (eps extX extZ : ℚ) (heps : 0 < eps) (cloudTypes : List ℕ)
    (center : ℚ × ℚ) :
    straysOf eps (calculateGridPositions extX extZ center)
      (initialSpawn cloudTypes ((calculateGridPositions extX extZ center).map Prod.snd))
      = [] := by
  unfold straysOf
  rw [List.filter_eq_nil]
  intro n hn
  have hlt : n < (initialSpawn cloudTypes
      ((calculateGridPositions extX extZ center).map Prod.snd)).length :=
    List.mem_range.mp hn
  have hmem : ((initialSpawn cloudTypes
      ((calculateGridPositions extX extZ center).map Prod.snd)).getD n default)
      ∈ initialSpawn cloudTypes ((calculateGridPositions extX extZ center).map Prod.snd) := by
    rw [List.getD_eq_getElem _ _ hlt]
    exact List.getElem_mem hlt
  have hpos := (mem_spawnForGroups cloudTypes _ _ _ hmem).2
  obtain ⟨r, hr, hrp⟩ := List.mem_map.mp hpos
  have hany : (calculateGridPositions extX extZ center).any
      (fun r' => nearPos eps ((initialSpawn cloudTypes
        ((calculateGridPositions extX extZ center).map Prod.snd)).getD n default).pos r'.2)
      = true := by
    rw [List.any_eq_true]
    exact ⟨r, hr, by rw [← hrp]; exact nearPos_self eps heps _⟩
  simp only [Bool.not_eq_true']
  rw [hany]
  simp

/-- Every (group, required position) pair is already occupied right
after the initial spawn. -/
lemma hasCloudAt_spawn (eps : ℚ) (heps : 0 < eps) (cloudTypes : List ℕ)
    (positions : List (ℚ × ℚ)) (starts : List ℕ) (i : ℕ) (hi : i ∈ starts) (p : ℚ × ℚ)
    (hp : p ∈ positions) :
    hasCloudAt eps (spawnForGroups cloudTypes positions starts)
      (cloudTypes.getD i 0) p = true := by
  unfold hasCloudAt
  rw [List.any_eq_true]
  refine ⟨PTile.mk p (cloudTypes.getD i 0),
    spawn_mem_of cloudTypes positions starts i hi p hp, ?_⟩
  simp [nearPos_self eps heps p]

/-- Phase 2 over one group does nothing when every required position
already has a tile of the group. -/
lemma fillPositions_noop (eps : ℚ) (g : ℕ) (tiles : List PTile) (strays : List ℕ) :
    ∀ rs : List ((ℤ × ℤ) × (ℚ × ℚ)),
      (∀ r ∈ rs, hasCloudAt eps tiles g r.2 = true) →
      fillPositions eps g rs (tiles, strays) = .ok (tiles, strays) := by
  intro rs
  induction rs with
  | nil => intro _; rfl
  | cons r rs ih =>
    intro h
    rw [fillPositions]
    have h1 : fillOne eps g r.2 (tiles, strays) = .ok (tiles, strays) := by
      unfold fillOne
      rw [if_pos (h r (List.mem_cons_self r rs))]
    rw [h1]
    exact ih (fun r' hr' => h r' (List.mem_cons_of_mem r hr'))

/-- Phase 2 over all groups does nothing when every (group, position)
pair already has a tile. -/
lemma fillGroups_noop (eps : ℚ) (req : List ((ℤ × ℤ) × (ℚ × ℚ))) (tiles : List PTile)
    (strays : List ℕ) :
    ∀ gs : List ℕ,
      (∀ g ∈ gs, ∀ r ∈ req, hasCloudAt eps tiles g r.2 = true) →
      fillGroups eps req gs (tiles, strays) = .ok (tiles, strays) := by
  intro gs
  induction gs with
  | nil => intro _; rfl
  | cons g gs ih =>
    intro h
    rw [fillGroups]
    rw [fillPositions_noop eps g tiles strays req (h g (List.mem_cons_self g gs))]
    exact ih (fun g' hg' => h g' (List.mem_cons_of_mem g hg'))

/-- Repositioning right after the initial spawn is the identity. -/
lemma applyNewCloudPositioning_spawn_noop (eps extX extZ : ℚ) (heps : 0 < eps)
    (cloudTypes : List ℕ) (center : ℚ × ℚ) :
    applyNewCloudPositioning eps extX extZ cloudTypes center
      (initialSpawn cloudTypes ((calculateGridPositions extX extZ center).map Prod.snd))
      = .ok (initialSpawn cloudTypes
          ((calculateGridPositions extX extZ center).map Prod.snd)) := by
  unfold applyNewCloudPositioning
  rw [straysOf_spawn_empty eps extX extZ heps cloudTypes center]
  rw [fillGroups_noop eps (calculateGridPositions extX extZ center) _ []
    (groupIds cloudTypes)
    (by
      intro g hg r hr
      obtain ⟨i, hi, rfl⟩ := List.mem_map.mp hg
      exact hasCloudAt_spawn eps heps cloudTypes _ _ i hi r.2
        (List.mem_map_of_mem _ hr))]
  rfl

/-- Snapping the origin gives the origin. -/
lemma calcGridCenter_zero (extX extZ : ℚ) :
    calculateGridCenterForPlayerPos extX extZ (0, 0) = (0, 0) := by
  unfold calculateGridCenterForPlayerPos cppRoundQ
  norm_num [Prod.ext_iff]

end PositioningLemmas

/-- C8: when two consecutive ticks see player positions with the same
snapped grid center, the second tick is a no-op: it leaves the state
(grid center and every tile with its position) unchanged and performs no
repositioning work (the repositioning flag is `false`). -/
theorem tick_noop_when_center_unchanged (eps extX extZ : ℚ) (cloudTypes : List ℕ)
    (s s1 : SysState) (b : Bool) (p1 p2 : ℚ × ℚ)
    (hne : s.tiles ≠ [])
    (hsnap : calculateGridCenterForPlayerPos extX extZ p1
           = calculateGridCenterForPlayerPos extX extZ p2)
    (h1 : doSpawnCycle eps extX extZ cloudTypes s p1 = .ok (s1, b)) :
    doSpawnCycle eps extX extZ cloudTypes s1 p2 = .ok (s1, false) := by
  rw [doSpawnCycle_nonempty eps extX extZ cloudTypes s p1 hne] at h1
  by_cases hlen : s.tiles.length = cloudCountFormula cloudTypes.length
  · rw [if_pos hlen] at h1
    by_cases hctr : s.gridCenter = calculateGridCenterForPlayerPos extX extZ p1
    · rw [if_pos hctr] at h1
      cases h1
      rw [doSpawnCycle_nonempty eps extX extZ cloudTypes s p2 hne, if_pos hlen,
        if_pos (by rw [hctr, hsnap])]
    · rw [if_neg hctr] at h1
      rcases happ : applyNewCloudPositioning eps extX extZ cloudTypes
          (calculateGridCenterForPlayerPos extX extZ p1) s.tiles with e | tiles2
      · rw [happ] at h1
        cases h1
      · rw [happ] at h1
        cases h1
        have hlen2 : tiles2.length = s.tiles.length :=
          applyNewCloudPositioning_length eps extX extZ cloudTypes _ s.tiles tiles2 happ
        have hne2 : tiles2 ≠ [] := by
          intro habs
          apply hne
          rw [← List.length_eq_zero, ← hlen2, habs]
          rfl
        rw [doSpawnCycle_nonempty eps extX extZ cloudTypes _ p2 hne2]
        rw [if_pos (by
          rw [show (SysState.mk (calculateGridCenterForPlayerPos extX extZ p1)
            tiles2).tiles = tiles2 from rfl, hlen2]
          exact hlen)]
        rw [if_pos (by exact hsnap)]
  · rw [if_neg hlen] at h1
    cases h1

/-- Concrete instance of `tick_noop_when_center_unchanged`: the 9-tile
single-group state on the origin grid, ticked from player positions
`(1, 2)` and then `(3, -2)`, both snapping to the origin. -/
theorem tick_noop_witness :
    doSpawnCycle 1 200 200 [1] noopDemoState (3, -2) = .ok (noopDemoState, false) :=
  tick_noop_when_center_unchanged 1 200 200 [1] noopDemoState noopDemoState false
    (1, 2) (3, -2)
    (by
      intro habs
      have h9 : noopDemoState.tiles.length = 9 := rfl
      rw [habs] at h9
      cases h9)
    (by norm_num [calculateGridCenterForPlayerPos, cppRoundQ, Prod.ext_iff])
    (by
      rw [doSpawnCycle_nonempty 1 200 200 [1] noopDemoState (1, 2) (by
        intro habs
        have h9 : noopDemoState.tiles.length = 9 := rfl
        rw [habs] at h9
        cases h9)]
      rw [if_pos (by rfl)]
      rw [if_pos (by
        norm_num [noopDemoState, calculateGridCenterForPlayerPos, cppRoundQ, Prod.ext_iff])])

/-- C3: after initialization with `N` compound types the system manages
exactly `ceil(N/4) * 9` tiles — the count asserted fatally by
`doSpawnCycle` — with exactly one tile per (compound group, one of the 9
required grid positions); the initializing call itself succeeds and
establishes exactly that tile set; a tick on an established state never
changes the tile count; and a state whose count deviates from the
formula makes `doSpawnCycle` fail fatally rather than silently repairing
it. -/
theorem tile_count_invariant (eps extX extZ : ℚ) (cloudTypes : List ℕ)
    (heps : 0 < eps)
    (hgroups : ((groupStarts cloudTypes.length).map
      (fun i => cloudTypes.getD i 0)).Nodup)
    (hposnd : ((calculateGridPositions extX extZ (0, 0)).map Prod.snd).Nodup) :
    (initialSpawn cloudTypes
      ((calculateGridPositions extX extZ (0, 0)).map Prod.snd)).length
      = (cloudTypes.length + 3) / 4 * 9 ∧
    cloudCountFormula cloudTypes.length = (cloudTypes.length + 3) / 4 * 9 ∧
    (∀ i ∈ groupStarts cloudTypes.length,
      ∀ p ∈ (calculateGridPositions extX extZ (0, 0)).map Prod.snd,
      ((initialSpawn cloudTypes
        ((calculateGridPositions extX extZ (0, 0)).map Prod.snd)).filter
        (fun t => t.groupId == cloudTypes.getD i 0 && decide (t.pos = p))).length = 1) ∧
    (∀ c0 : ℚ × ℚ,
      doSpawnCycle eps extX extZ cloudTypes (SysState.mk c0 []) (0, 0)
        = .ok (SysState.mk (0, 0)
            (initialSpawn cloudTypes
              ((calculateGridPositions extX extZ (0, 0)).map Prod.snd)), false)) ∧
    (∀ (s : SysState) (p : ℚ × ℚ) (s2 : SysState) (b : Bool),
      s.tiles ≠ [] → doSpawnCycle eps extX extZ cloudTypes s p = .ok (s2, b) →
      s2.tiles.length = s.tiles.length) ∧
    (∀ (s : SysState) (p : ℚ × ℚ), s.tiles ≠ [] →
      s.tiles.length ≠ cloudCountFormula cloudTypes.length →
      ∃ e, doSpawnCycle eps extX extZ cloudTypes s p = .error e) := by
  have hlen9 : ((calculateGridPositions extX extZ (0, 0)).map Prod.snd).length = 9 := rfl
  have hspawnlen : (initialSpawn cloudTypes
      ((calculateGridPositions extX extZ (0, 0)).map Prod.snd)).length
      = (cloudTypes.length + 3) / 4 * 9 := by
    rw [initialSpawn_length, hlen9]
  refine ⟨hspawnlen, cloudCountFormula_eq cloudTypes.length, ?_, ?_, ?_, ?_⟩
  · intro i hi p hp
    exact spawnForGroups_count_one cloudTypes _ hposnd (groupStarts cloudTypes.length)
      hgroups i hi p hp
  · intro c0
    unfold doSpawnCycle
    simp only [List.isEmpty_nil, if_true]
    rw [applyNewCloudPositioning_spawn_noop eps extX extZ heps cloudTypes (0, 0)]
    dsimp only
    rw [if_pos (by rw [hspawnlen, cloudCountFormula_eq])]
    rw [if_pos (by rw [calcGridCenter_zero])]
  · intro s p s2 b hne h
    rw [doSpawnCycle_nonempty eps extX extZ cloudTypes s p hne] at h
    by_cases hlen : s.tiles.length = cloudCountFormula cloudTypes.length
    · rw [if_pos hlen] at h
      by_cases hctr : s.gridCenter = calculateGridCenterForPlayerPos extX extZ p
      · rw [if_pos hctr] at h
        cases h
        rfl
      · rw [if_neg hctr] at h
        rcases happ : applyNewCloudPositioning eps extX extZ cloudTypes
            (calculateGridCenterForPlayerPos extX extZ p) s.tiles with e | tiles2
        · rw [happ] at h
          cases h
        · rw [happ] at h
          cases h
          exact applyNewCloudPositioning_length eps extX extZ cloudTypes _ s.tiles
            tiles2 happ
    · rw [if_neg hlen] at h
      cases h
  · intro s p hne hlen
    rw [doSpawnCycle_nonempty eps extX extZ cloudTypes s p hne, if_neg hlen]
    exact ⟨_, rfl⟩

/-- Concrete instance of `tile_count_invariant`: five compound types form
two groups and spawn `2 * 9 = 18` tiles. -/
theorem tile_count_invariant_witness :
    (initialSpawn countDemoTypes
      ((calculateGridPositions 200 200 (0, 0)).map Prod.snd)).length
      = (countDemoTypes.length + 3) / 4 * 9 :=
  (tile_count_invariant 1 200 200 countDemoTypes (by norm_num)
    (by decide)
    (by
      simp only [calculateGridPositions, List.map_cons, List.map_nil, List.nodup_cons,
        List.mem_cons, List.mem_singleton, List.not_mem_nil, List.nodup_nil,
        Prod.mk.injEq, not_or]
      norm_num)).1

end CloudSys
